import Mathlib

/-!
# The `ldbm` compatibility layer and the Perl backend configuration loader

A shallow embedding of `libraries/libldbm/ldbm.c` and of
`servers/slapd/back-perl/config.c`.

* A `Datum` is a pointer/size pair.  The pointer is `none` for `NULL` and
  `some b` for a live buffer whose contents are `b`.
* The native database library is an explicit record of functions over an
  abstract store state; every facade routine threads a `World` that carries
  the store state, the allocator and the trace of observable events
  (mutex operations, allocations, native calls).
* Each build variant of `ldbm.c` (selected by the preprocessor) lives in a
  namespace of its own and keeps the names of the C functions.
-/

namespace Ldbm

/-- One byte of a key or value. -/
abbrev Byte := Fin 256

/-- The `Datum` of `ldbm.h`: `dptr` is `none` for `NULL`, otherwise the contents
of the buffer pointed to; `dsize` is the size field.  `flags` is the `flags`
member of the Berkeley DB 2 `DBT` and is `0` in every other variant. -/
structure Datum where
  dptr : Option (List Byte)
  dsize : Nat
  flags : Nat := 0
deriving DecidableEq, Repr

/-- The `dsize` bytes a datum denotes (what `memcpy(_, d.dptr, d.dsize)` reads). -/
def Datum.bytes (d : Datum) : List Byte :=
  (d.dptr.getD []).take d.dsize

/-- The datum a caller builds for a byte string. -/
def Datum.ofBytes (b : List Byte) : Datum :=
  { dptr := some b, dsize := b.length }

/-- The empty datum: `NULL` pointer, size `0`. -/
def Datum.empty : Datum :=
  { dptr := none, dsize := 0 }

/-- The `kvpair` of the MDBM interface. -/
structure kvpair where
  key : Datum
  val : Datum
deriving DecidableEq, Repr

/-- Names of the native library entry points called by `ldbm.c`. -/
inductive Fn
  | dbopen | db_open | db_close | db_sync | db_get | db_put | db_del | db_seq
  | db_cursor | dbc_get | db_appinit
  | gdbm_open | gdbm_setopt | gdbm_close | gdbm_sync | gdbm_fetch | gdbm_store
  | gdbm_delete | gdbm_firstkey | gdbm_nextkey | gdbm_errno
  | mdbm_open | mdbm_close | mdbm_sync | mdbm_fetch | mdbm_store | mdbm_delete
  | mdbm_first | mdbm_next
  | dbm_open | dbm_close | dbm_fetch | dbm_store | dbm_delete | dbm_firstkey
  | dbm_nextkey | dbm_error
deriving DecidableEq, Repr

/-- Observable events of a facade routine, in program order. -/
inductive Event
  | lock
  | unlock
  | malloc (size : Nat) (ok : Bool)
  | free
  | native (fn : Fn) (key : Datum) (val : Datum) (flags : Nat)
deriving DecidableEq, Repr

/-- Abnormal termination of the embedding: a store through a `NULL` pointer,
or the loop bound of the embedding being exhausted. -/
inductive Fault
  | nullDeref
  | outOfFuel
deriving DecidableEq, Repr

/-- The state threaded through every routine: the native store, the allocator
(`allocOk i` tells whether the `i`-th `malloc` of the run succeeds), the number
of allocations made so far, and the event trace. -/
structure World (σ : Type) where
  db : σ
  allocOk : Nat → Bool
  nalloc : Nat
  trace : List Event

/-- The world a run starts in. -/
def World.init {σ : Type} (s : σ) (allocOk : Nat → Bool) : World σ :=
  { db := s, allocOk := allocOk, nalloc := 0, trace := [] }

/-- Append an event to the trace. -/
def World.emit {σ : Type} (w : World σ) (e : Event) : World σ :=
  { w with trace := w.trace ++ [e] }

/-- Record a native call and install the store state it leaves. -/
def World.call {σ : Type} (w : World σ) (db : σ) (fn : Fn) (key val : Datum)
    (flags : Nat) : World σ :=
  { w with db := db, trace := w.trace ++ [Event.native fn key val flags] }

/-- C `malloc(n)`: `none` is `NULL`; a fresh buffer is modelled zero-filled. -/
def malloc {σ : Type} (w : World σ) (n : Nat) : World σ × Option (List Byte) :=
  let ok := w.allocOk w.nalloc
  ({ w with nalloc := w.nalloc + 1, trace := w.trace ++ [Event.malloc n ok] },
   if ok then some (List.replicate n 0) else none)

/-- C `free(p)`; `free(NULL)` does nothing. -/
def free {σ : Type} (w : World σ) (p : Option (List Byte)) : World σ :=
  match p with
  | none => w
  | some _ => w.emit Event.free

/-- C `memcpy(dst + off, src, n)` on buffer contents. -/
def memcpy (dst : List Byte) (off : Nat) (src : List Byte) (n : Nat) : List Byte :=
  dst.take off ++ src.take n ++ dst.drop (off + n)

/-- The routine `ldbm_datum_dup` (ldbm.c lines 33-49).  On allocation failure the
size field keeps the source size and the pointer is `NULL`. -/
def ldbm_datum_dup {σ : Type} (w : World σ) (data : Datum) : World σ × Datum :=
  if data.dsize = 0 then
    (w, { dptr := none, dsize := 0 })
  else
    let (w, p) := malloc w data.dsize
    match p with
    | some buf =>
      (w, { dptr := some (memcpy buf 0 (data.dptr.getD []) data.dsize),
            dsize := data.dsize })
    | none => (w, { dptr := none, dsize := data.dsize })

/-- C `flags & ~mask` on a 32-bit word. -/
def clearBits (flags mask : Nat) : Nat :=
  flags &&& (mask ^^^ 0xFFFFFFFF)

/-! ## A reference store -/

/-- A reference native store: a finite map from key bytes to value bytes (most
recent binding first, one binding per key) and an iteration position. -/
structure MapStore where
  cells : List (List Byte × List Byte)
  pos : Nat
deriving DecidableEq, Repr

/-- The key at the iteration position, handed back as a `kvpair`. -/
def MapStore.keyAt (s : MapStore) (i : Nat) : kvpair :=
  match s.cells.get? i with
  | none => { key := Datum.empty, val := Datum.empty }
  | some c => { key := Datum.ofBytes c.1, val := Datum.empty }

/-! ## Berkeley DB 1.85 variant (`LDBM_USE_DBHASH` / `LDBM_USE_DBBTREE`,
`HAVE_BERKELEY_DB2` not defined) -/

namespace Db1

/-- The routine flags `R_FIRST`, `R_NEXT` of the 1.85 `db.h`. -/
def R_FIRST : Nat := 3

/-- See `R_FIRST`. -/
def R_NEXT : Nat := 7

/-- The methods of a 1.85 `DB` handle used by `ldbm.c`.  `get` and `seq` return
the status and the data (and key) they wrote through the pointers. -/
structure Api (σ : Type) where
  dbopen : σ → String → Int → Int → Int → σ × Bool
  close : σ → σ
  sync : σ → Nat → σ
  get : σ → Datum → Nat → σ × Int × Datum
  put : σ → Datum → Datum → Nat → σ × Int
  del : σ → Datum → Nat → σ × Int
  seq : σ → Datum → Nat → σ × Int × Datum × Datum

/-- `ldbm_open` (lines 132-183, the `#else` branch). -/
def ldbm_open {σ : Type} (api : Api σ) (w : World σ) (name : String) (rw mode : Int)
    (dbcachesize : Int) : World σ × Bool :=
  let w := w.emit Event.lock
  let (db, ret) := api.dbopen w.db name rw mode dbcachesize
  let w := w.call db Fn.dbopen Datum.empty Datum.empty 0
  let w := w.emit Event.unlock
  (w, ret)

/-- `ldbm_close` (lines 185-195). -/
def ldbm_close {σ : Type} (api : Api σ) (w : World σ) : World σ :=
  let w := w.emit Event.lock
  let w := w.call (api.close w.db) Fn.db_close Datum.empty Datum.empty 0
  w.emit Event.unlock

/-- `ldbm_sync` (lines 197-203). -/
def ldbm_sync {σ : Type} (api : Api σ) (w : World σ) : World σ :=
  let w := w.emit Event.lock
  let w := w.call (api.sync w.db 0) Fn.db_sync Datum.empty Datum.empty 0
  w.emit Event.unlock

/-- `ldbm_fetch` (lines 205-234, the `#else` branch): the datum of a successful
`get` is duplicated, any other status gives the empty datum. -/
def ldbm_fetch {σ : Type} (api : Api σ) (w : World σ) (key : Datum) : World σ × Datum :=
  let w := w.emit Event.lock
  let (db, rc, data) := api.get w.db key 0
  let w := w.call db Fn.db_get key Datum.empty 0
  let (w, data) :=
    if rc = 0 then
      ldbm_datum_dup w data
    else
      (w, { data with dptr := none, dsize := 0 })
  let w := w.emit Event.unlock
  (w, data)

/-- `ldbm_store` (lines 236-256, the `#else` branch).  `LDBM_SYNC` is the macro of
`ldbm.h`, a header that is not part of the sources. -/
def ldbm_store {σ : Type} (LDBM_SYNC : Nat) (api : Api σ) (w : World σ) (key data : Datum) (flags : Nat) :
    World σ × Int :=
  let w := w.emit Event.lock
  let (db, rc) := api.put w.db key data (clearBits flags LDBM_SYNC)
  let w := w.call db Fn.db_put key data (clearBits flags LDBM_SYNC)
  let w := if flags &&& LDBM_SYNC ≠ 0 then
      w.call (api.sync w.db 0) Fn.db_sync Datum.empty Datum.empty 0
    else w
  let w := w.emit Event.unlock
  (w, rc)

/-- `ldbm_delete` (lines 258-276, the `#else` branch). -/
def ldbm_delete {σ : Type} (api : Api σ) (w : World σ) (key : Datum) : World σ × Int :=
  let w := w.emit Event.lock
  let (db, rc) := api.del w.db key 0
  let w := w.call db Fn.db_del key Datum.empty 0
  let w := w.call (api.sync w.db 0) Fn.db_sync Datum.empty Datum.empty 0
  let w := w.emit Event.unlock
  (w, rc)

/-- The common body of `ldbm_firstkey` / `ldbm_nextkey` (lines 319-336 and
363-380): `seq` with the given routine flag, then duplicate or clear the key. -/
def seq_key {σ : Type} (api : Api σ) (w : World σ) (key : Datum) (flag : Nat) :
    World σ × Datum :=
  let w := w.emit Event.lock
  let (db, rc, key1, _data) := api.seq w.db key flag
  let w := w.call db Fn.db_seq key Datum.empty flag
  let (w, key) :=
    if rc = 0 then
      ldbm_datum_dup w key1
    else
      (w, { key1 with dptr := none, dsize := 0 })
  let w := w.emit Event.unlock
  (w, key)

/-- `ldbm_firstkey` (lines 278-337, the `#else` branch); `key` is the
uninitialised local handed to `seq`. -/
def ldbm_firstkey {σ : Type} (api : Api σ) (w : World σ) (key : Datum) : World σ × Datum :=
  seq_key api w key R_FIRST

/-- `ldbm_nextkey` (lines 339-381, the `#else` branch). -/
def ldbm_nextkey {σ : Type} (api : Api σ) (w : World σ) (key : Datum) : World σ × Datum :=
  seq_key api w key R_NEXT

/-- A 1.85 handle over a table of bindings: `get` answers `0` with the stored
value for a key that is present and `1` (not found) otherwise. -/
def tableApi : Api MapStore where
  dbopen s _ _ _ _ := (s, true)
  close s := s
  sync s _ := s
  get s key _ :=
    match s.cells.lookup key.bytes with
    | some v => (s, 0, Datum.ofBytes v)
    | none => (s, 1, Datum.empty)
  put s key data _ :=
    ({ s with cells := (key.bytes, data.bytes) :: s.cells.filter (fun c => c.1 != key.bytes) }, 0)
  del s key _ :=
    if (s.cells.lookup key.bytes).isSome then
      ({ s with cells := s.cells.filter (fun c => c.1 != key.bytes) }, 0)
    else (s, 1)
  seq s _ flag :=
    let i := if flag = R_FIRST then 0 else s.pos + 1
    match s.cells.get? i with
    | some c => ({ s with pos := i }, 0, Datum.ofBytes c.1, Datum.ofBytes c.2)
    | none => ({ s with pos := i }, 1, Datum.empty, Datum.empty)

end Db1

/-! ## Berkeley DB 2 variant (`HAVE_BERKELEY_DB2`): `LDBM_LOCK` and
`LDBM_UNLOCK` expand to `((void)0)` -/

namespace Db2

/-- The flag `DB_DBT_MALLOC` of the 2.x `db.h`. -/
def DB_DBT_MALLOC : Nat := 2

/-- The methods of a 2.x `DB` handle used by `ldbm_close` .. `ldbm_delete`.
`get` receives the initialised data `DBT` and returns the status and the `DBT`
it leaves. -/
structure Api (σ : Type) where
  close : σ → Nat → σ
  sync : σ → Nat → σ
  get : σ → Datum → Datum → Nat → σ × Int × Datum
  put : σ → Datum → Datum → Nat → σ × Int
  del : σ → Datum → Nat → σ × Int

/-- `ldbm_datum_init`: `memset(&d, 0, sizeof d)`. -/
def ldbm_datum_init : Datum :=
  { dptr := none, dsize := 0, flags := 0 }

/-- `ldbm_close` (lines 185-195). -/
def ldbm_close {σ : Type} (api : Api σ) (w : World σ) : World σ :=
  w.call (api.close w.db 0) Fn.db_close Datum.empty Datum.empty 0

/-- `ldbm_sync` (lines 197-203). -/
def ldbm_sync {σ : Type} (api : Api σ) (w : World σ) : World σ :=
  w.call (api.sync w.db 0) Fn.db_sync Datum.empty Datum.empty 0

/-- `ldbm_fetch` (lines 205-234, the `HAVE_BERKELEY_DB2` branch): on a non-zero
status the buffer, if any, is freed and the datum cleared. -/
def ldbm_fetch {σ : Type} (api : Api σ) (w : World σ) (key : Datum) : World σ × Datum :=
  let data := { ldbm_datum_init with flags := DB_DBT_MALLOC }
  let (db, rc, data1) := api.get w.db key data 0
  let w := w.call db Fn.db_get key data 0
  if rc ≠ 0 then
    let w := free w data1.dptr
    (w, { data1 with dptr := none, dsize := 0 })
  else
    (w, data1)

/-- `ldbm_store` (lines 236-256, the `HAVE_BERKELEY_DB2` branch); `LDBM_SYNC` as
in the 1.85 variant. -/
def ldbm_store {σ : Type} (LDBM_SYNC : Nat) (api : Api σ) (w : World σ) (key data : Datum) (flags : Nat) :
    World σ × Int :=
  let (db, rc) := api.put w.db key data (clearBits flags LDBM_SYNC)
  let w := w.call db Fn.db_put key data (clearBits flags LDBM_SYNC)
  let rc := (-1) * rc
  let w := if flags &&& LDBM_SYNC ≠ 0 then
      w.call (api.sync w.db 0) Fn.db_sync Datum.empty Datum.empty 0
    else w
  (w, rc)

/-- `ldbm_delete` (lines 258-276, the `HAVE_BERKELEY_DB2` branch). -/
def ldbm_delete {σ : Type} (api : Api σ) (w : World σ) (key : Datum) : World σ × Int :=
  let (db, rc) := api.del w.db key 0
  let w := w.call db Fn.db_del key Datum.empty 0
  let rc := (-1) * rc
  let w := w.call (api.sync w.db 0) Fn.db_sync Datum.empty Datum.empty 0
  (w, rc)

/-- A 2.x handle over a table of bindings: `get` answers `0` with a freshly
allocated copy of the stored value for a key that is present and a non-zero
status (`DB_NOTFOUND`) otherwise. -/
def tableApi : Api MapStore where
  close s _ := s
  sync s _ := s
  get s key data _ :=
    match s.cells.lookup key.bytes with
    | some v => (s, 0, { data with dptr := some v, dsize := v.length })
    | none => (s, -7, data)
  put s key data _ :=
    ({ s with cells := (key.bytes, data.bytes) :: s.cells.filter (fun c => c.1 != key.bytes) }, 0)
  del s key _ :=
    if (s.cells.lookup key.bytes).isSome then
      ({ s with cells := s.cells.filter (fun c => c.1 != key.bytes) }, 0)
    else (s, -7)

end Db2

/-! ## GDBM variant (`HAVE_GDBM`) -/

namespace Gdbm

/-- The native GDBM entry points and `stat(2)`.  `gdbm_open` returns whether the
handle is non-`NULL`; `stat` returns `st_blksize` when it succeeds. -/
structure Api (σ : Type) where
  gdbm_open : σ → String → Nat → Int → σ × Bool
  stat : σ → String → Option Int
  gdbm_setopt : σ → Int → σ
  gdbm_close : σ → σ
  gdbm_sync : σ → σ
  gdbm_fetch : σ → Datum → σ × Datum
  gdbm_store : σ → Datum → Datum → Nat → σ × Int
  gdbm_delete : σ → Datum → σ × Int
  gdbm_firstkey : σ → σ × Datum
  gdbm_nextkey : σ → Datum → σ × Datum
  gdbm_errno : σ → Int

/-- The flag `GDBM_FAST` of `gdbm.h`. -/
def GDBM_FAST : Nat := 0x10

/-- `ldbm_open` (lines 399-419). -/
def ldbm_open {σ : Type} (api : Api σ) (w : World σ) (name : String) (rw : Nat) (mode : Int)
    (dbcachesize : Int) : World σ × Bool :=
  let w := w.emit Event.lock
  let (db, ok) := api.gdbm_open w.db name (rw ||| GDBM_FAST) mode
  let w := w.call db Fn.gdbm_open Datum.empty Datum.empty 0
  if !ok then
    (w.emit Event.unlock, false)
  else
    let w :=
      if dbcachesize > 0 then
        match api.stat w.db name with
        | some blksize =>
          let dbcachesize := Int.tdiv dbcachesize blksize
          w.call (api.gdbm_setopt w.db dbcachesize) Fn.gdbm_setopt Datum.empty Datum.empty 0
        | none => w
      else w
    (w.emit Event.unlock, true)

/-- `ldbm_close` (lines 421-427). -/
def ldbm_close {σ : Type} (api : Api σ) (w : World σ) : World σ :=
  let w := w.emit Event.lock
  let w := w.call (api.gdbm_close w.db) Fn.gdbm_close Datum.empty Datum.empty 0
  w.emit Event.unlock

/-- `ldbm_sync` (lines 429-435). -/
def ldbm_sync {σ : Type} (api : Api σ) (w : World σ) : World σ :=
  let w := w.emit Event.lock
  let w := w.call (api.gdbm_sync w.db) Fn.gdbm_sync Datum.empty Datum.empty 0
  w.emit Event.unlock

/-- `ldbm_fetch` (lines 437-447). -/
def ldbm_fetch {σ : Type} (api : Api σ) (w : World σ) (key : Datum) : World σ × Datum :=
  let w := w.emit Event.lock
  let (db, d) := api.gdbm_fetch w.db key
  let w := w.call db Fn.gdbm_fetch key Datum.empty 0
  let w := w.emit Event.unlock
  (w, d)

/-- `ldbm_store` (lines 449-461); `LDBM_SYNC` is the macro of `ldbm.h`. -/
def ldbm_store {σ : Type} (LDBM_SYNC : Nat) (api : Api σ) (w : World σ) (key data : Datum) (flags : Nat) :
    World σ × Int :=
  let w := w.emit Event.lock
  let (db, rc) := api.gdbm_store w.db key data (clearBits flags LDBM_SYNC)
  let w := w.call db Fn.gdbm_store key data (clearBits flags LDBM_SYNC)
  let w := if flags &&& LDBM_SYNC ≠ 0 then
      w.call (api.gdbm_sync w.db) Fn.gdbm_sync Datum.empty Datum.empty 0
    else w
  let w := w.emit Event.unlock
  (w, rc)

/-- `ldbm_delete` (lines 463-474). -/
def ldbm_delete {σ : Type} (api : Api σ) (w : World σ) (key : Datum) : World σ × Int :=
  let w := w.emit Event.lock
  let (db, rc) := api.gdbm_delete w.db key
  let w := w.call db Fn.gdbm_delete key Datum.empty 0
  let w := w.call (api.gdbm_sync w.db) Fn.gdbm_sync Datum.empty Datum.empty 0
  let w := w.emit Event.unlock
  (w, rc)

/-- `ldbm_firstkey` (lines 476-486). -/
def ldbm_firstkey {σ : Type} (api : Api σ) (w : World σ) : World σ × Datum :=
  let w := w.emit Event.lock
  let (db, d) := api.gdbm_firstkey w.db
  let w := w.call db Fn.gdbm_firstkey Datum.empty Datum.empty 0
  let w := w.emit Event.unlock
  (w, d)

/-- `ldbm_nextkey` (lines 488-498). -/
def ldbm_nextkey {σ : Type} (api : Api σ) (w : World σ) (key : Datum) : World σ × Datum :=
  let w := w.emit Event.lock
  let (db, d) := api.gdbm_nextkey w.db key
  let w := w.call db Fn.gdbm_nextkey key Datum.empty 0
  let w := w.emit Event.unlock
  (w, d)

/-- The reference store as a GDBM library. -/
def mapApi : Api MapStore where
  gdbm_open s _ _ _ := (s, true)
  stat _ _ := some 4096
  gdbm_setopt s _ := s
  gdbm_close s := s
  gdbm_sync s := s
  gdbm_fetch s key :=
    match s.cells.lookup key.bytes with
    | some v => (s, Datum.ofBytes v)
    | none => (s, Datum.empty)
  gdbm_store s key data _ :=
    ({ s with cells := (key.bytes, data.bytes) :: s.cells.filter (fun c => c.1 != key.bytes) }, 0)
  gdbm_delete s key :=
    if (s.cells.lookup key.bytes).isSome then
      ({ s with cells := s.cells.filter (fun c => c.1 != key.bytes) }, 0)
    else (s, -1)
  gdbm_firstkey s := ({ s with pos := 0 }, (s.keyAt 0).key)
  gdbm_nextkey s _ := ({ s with pos := s.pos + 1 }, (s.keyAt (s.pos + 1)).key)
  gdbm_errno _ := 0

end Gdbm

/-! ## NDBM variant (`HAVE_NDBM`) -/

namespace Ndbm

/-- The native NDBM entry points.  `dbm_open` returns whether the handle is
non-`NULL`. -/
structure Api (σ : Type) where
  dbm_open : σ → String → Int → Int → σ × Bool
  dbm_close : σ → σ
  dbm_fetch : σ → Datum → σ × Datum
  dbm_store : σ → Datum → Datum → Nat → σ × Int
  dbm_delete : σ → Datum → σ × Int
  dbm_firstkey : σ → σ × Datum
  dbm_nextkey : σ → σ × Datum
  dbm_error : σ → Int

/-- `ldbm_open` (lines 878-888). -/
def ldbm_open {σ : Type} (api : Api σ) (w : World σ) (name : String) (rw mode : Int)
    (_dbcachesize : Int) : World σ × Bool :=
  let w := w.emit Event.lock
  let (db, ldbm) := api.dbm_open w.db name rw mode
  let w := w.call db Fn.dbm_open Datum.empty Datum.empty 0
  let w := w.emit Event.unlock
  (w, ldbm)

/-- `ldbm_close` (lines 890-896). -/
def ldbm_close {σ : Type} (api : Api σ) (w : World σ) : World σ :=
  let w := w.emit Event.lock
  let w := w.call (api.dbm_close w.db) Fn.dbm_close Datum.empty Datum.empty 0
  w.emit Event.unlock

/-- `ldbm_sync` (lines 899-903): `return;`. -/
def ldbm_sync {σ : Type} (_api : Api σ) (w : World σ) : World σ :=
  w

/-- `ldbm_fetch` (lines 905-915). -/
def ldbm_fetch {σ : Type} (api : Api σ) (w : World σ) (key : Datum) : World σ × Datum :=
  let w := w.emit Event.lock
  let (db, d0) := api.dbm_fetch w.db key
  let w := w.call db Fn.dbm_fetch key Datum.empty 0
  let (w, d) := ldbm_datum_dup w d0
  let w := w.emit Event.unlock
  (w, d)

/-- `ldbm_store` (lines 917-927): the caller's `flags` reach `dbm_store`
unchanged. -/
def ldbm_store {σ : Type} (api : Api σ) (w : World σ) (key data : Datum) (flags : Nat) :
    World σ × Int :=
  let w := w.emit Event.lock
  let (db, rc) := api.dbm_store w.db key data flags
  let w := w.call db Fn.dbm_store key data flags
  let w := w.emit Event.unlock
  (w, rc)

/-- `ldbm_delete` (lines 929-939). -/
def ldbm_delete {σ : Type} (api : Api σ) (w : World σ) (key : Datum) : World σ × Int :=
  let w := w.emit Event.lock
  let (db, rc) := api.dbm_delete w.db key
  let w := w.call db Fn.dbm_delete key Datum.empty 0
  let w := w.emit Event.unlock
  (w, rc)

/-- `ldbm_firstkey` (lines 941-951). -/
def ldbm_firstkey {σ : Type} (api : Api σ) (w : World σ) : World σ × Datum :=
  let w := w.emit Event.lock
  let (db, d) := api.dbm_firstkey w.db
  let w := w.call db Fn.dbm_firstkey Datum.empty Datum.empty 0
  let w := w.emit Event.unlock
  (w, d)

/-- `ldbm_nextkey` (lines 953-963): `dbm_nextkey` takes no key. -/
def ldbm_nextkey {σ : Type} (api : Api σ) (w : World σ) (_key : Datum) : World σ × Datum :=
  let w := w.emit Event.lock
  let (db, d) := api.dbm_nextkey w.db
  let w := w.call db Fn.dbm_nextkey Datum.empty Datum.empty 0
  let w := w.emit Event.unlock
  (w, d)

/-- The reference store as an NDBM library. -/
def mapApi : Api MapStore where
  dbm_open s _ _ _ := (s, true)
  dbm_close s := s
  dbm_fetch s key :=
    match s.cells.lookup key.bytes with
    | some v => (s, Datum.ofBytes v)
    | none => (s, Datum.empty)
  dbm_store s key data _ :=
    ({ s with cells := (key.bytes, data.bytes) :: s.cells.filter (fun c => c.1 != key.bytes) }, 0)
  dbm_delete s key :=
    if (s.cells.lookup key.bytes).isSome then
      ({ s with cells := s.cells.filter (fun c => c.1 != key.bytes) }, 0)
    else (s, -1)
  dbm_firstkey s := ({ s with pos := 0 }, (s.keyAt 0).key)
  dbm_nextkey s := ({ s with pos := s.pos + 1 }, (s.keyAt (s.pos + 1)).key)
  dbm_error _ := 0

end Ndbm

/-! ## MDBM variant (`HAVE_MDBM`, with `NO_NULL_KEY` defined, `MDBM_CHAIN` not) -/

namespace Mdbm

/-- The native MDBM entry points used by `ldbm.c`, over a store state `σ`.
`mdbm_open` returns whether the handle is non-`NULL`. -/
structure Api (σ : Type) where
  mdbm_open : σ → String → Int → Int → Nat → σ × Bool
  mdbm_close : σ → σ
  mdbm_sync : σ → σ
  mdbm_fetch : σ → kvpair → σ × Datum
  mdbm_store : σ → Datum → Datum → Nat → σ × Int
  mdbm_delete : σ → Datum → σ × Int
  mdbm_first : σ → kvpair → σ × kvpair
  mdbm_next : σ → kvpair → σ × kvpair
  MDBM_PAGE_SIZE : σ → Nat

/-- `#define MDBM_PG_SZ (4*1024)`. -/
def MDBM_PG_SZ : Nat := 4 * 1024

/-- `#define MAX_MDBM_RETRY 5`. -/
def MAX_MDBM_RETRY : Nat := 5

/-- The sentinel byte `'l'` put in front of every key. -/
def sentinel : Byte := 108

/-- The `NO_NULL_KEY` block shared by `ldbm_fetch`, `ldbm_store` and
`ldbm_delete`: `int_key.dsize = key.dsize + 1; int_key.dptr = malloc(..);
*(int_key.dptr) = 'l'; memcpy(int_key.dptr + 1, key.dptr, key.dsize)`.
The allocation is not checked, so a failed `malloc` is a `NULL` store. -/
def no_null_key {σ : Type} (w : World σ) (key : Datum) : Except Fault (World σ × Datum) :=
  let (w, p) := malloc w (key.dsize + 1)
  match p with
  | none => .error Fault.nullDeref
  | some buf =>
    let buf := buf.set 0 sentinel
    let buf := memcpy buf 1 (key.dptr.getD []) key.dsize
    .ok (w, { dptr := some buf, dsize := key.dsize + 1 })

/-- `ldbm_open` (lines 548-588). -/
def ldbm_open {σ : Type} (api : Api σ) (w : World σ) (name : String) (rw mode : Int)
    (_dbcachesize : Int) : World σ × Bool :=
  let w := w.emit Event.lock
  let (db, ok) := api.mdbm_open w.db name rw mode MDBM_PG_SZ
  let w := w.call db Fn.mdbm_open Datum.empty Datum.empty 0
  if !ok then
    (w.emit Event.unlock, false)
  else
    (w.emit Event.unlock, true)

/-- `ldbm_close` (lines 593-614). -/
def ldbm_close {σ : Type} (api : Api σ) (w : World σ) : World σ :=
  let w := w.emit Event.lock
  let w := w.call (api.mdbm_close w.db) Fn.mdbm_close Datum.empty Datum.empty 0
  w.emit Event.unlock

/-- `ldbm_sync` (lines 619-631). -/
def ldbm_sync {σ : Type} (api : Api σ) (w : World σ) : World σ :=
  let w := w.emit Event.lock
  let w := w.call (api.mdbm_sync w.db) Fn.mdbm_sync Datum.empty Datum.empty 0
  w.emit Event.unlock

/-- The `do { ... } while (...)` loop of `ldbm_fetch` (lines 662-688).
`fuel` bounds the unfolding of the embedding; `retry` is the C variable. -/
def ldbm_fetch_loop {σ : Type} (api : Api σ) :
    Nat → World σ → kvpair → Nat → Except Fault (World σ × Datum)
  | 0, _, _, _ => .error Fault.outOfFuel
  | fuel + 1, w, k, retry =>
    let (db, d) := api.mdbm_fetch w.db k
    let w := w.call db Fn.mdbm_fetch k.key k.val 0
    if d.dsize > 0 then
      let w := free w k.val.dptr
      let (w, p) := malloc w d.dsize
      match p with
      | some buf =>
        let k := { k with val := { k.val with dptr := some buf, dsize := d.dsize } }
        let (db, d) := api.mdbm_fetch w.db k
        let w := w.call db Fn.mdbm_fetch k.key k.val 0
        if d.dsize > k.val.dsize ∧ retry + 1 < MAX_MDBM_RETRY then
          ldbm_fetch_loop api fuel w k (retry + 1)
        else
          .ok (w, d)
      | none =>
        .ok (w, { d with dsize := 0 })
    else
      if d.dsize > k.val.dsize ∧ retry + 1 < MAX_MDBM_RETRY then
        ldbm_fetch_loop api fuel w k (retry + 1)
      else
        .ok (w, d)

/-- `ldbm_fetch` (lines 636-698).  The mutex calls are commented out in the
source, so none is emitted. -/
def ldbm_fetch {σ : Type} (api : Api σ) (w : World σ) (key : Datum) :
    Except Fault (World σ × Datum) :=
  match no_null_key w key with
  | .error f => .error f
  | .ok (w, kkey) =>
    let k : kvpair := { key := kkey, val := { dptr := none, dsize := 0 } }
    match ldbm_fetch_loop api MAX_MDBM_RETRY w k 0 with
    | .error f => .error f
    | .ok (w, d) => .ok (free w k.key.dptr, d)

/-- `ldbm_store` (lines 703-745); `LDBM_SYNC` is the macro of `ldbm.h`.  The
caller's `flags` reach `mdbm_store` unchanged. -/
def ldbm_store {σ : Type} (LDBM_SYNC : Nat) (api : Api σ) (w : World σ) (key data : Datum) (flags : Nat) :
    Except Fault (World σ × Int) :=
  match no_null_key w key with
  | .error f => .error f
  | .ok (w, int_key) =>
    let (db, rc) := api.mdbm_store w.db int_key data flags
    let w := w.call db Fn.mdbm_store int_key data flags
    let w := if flags &&& LDBM_SYNC ≠ 0 then
        w.call (api.mdbm_sync w.db) Fn.mdbm_sync Datum.empty Datum.empty 0
      else w
    .ok (free w int_key.dptr, rc)

/-- `ldbm_delete` (lines 750-776): no mutex and no `mdbm_sync`. -/
def ldbm_delete {σ : Type} (api : Api σ) (w : World σ) (key : Datum) :
    Except Fault (World σ × Int) :=
  match no_null_key w key with
  | .error f => .error f
  | .ok (w, int_key) =>
    let (db, rc) := api.mdbm_delete w.db int_key
    let w := w.call db Fn.mdbm_delete int_key Datum.empty 0
    .ok (free w int_key.dptr, rc)

/-- `ldbm_get_next` (lines 781-831); `fn`/`fptr` is the function pointer
argument (`mdbm_first` or `mdbm_next`); `delta` is `1` under `NO_NULL_KEY`. -/
def ldbm_get_next {σ : Type} (api : Api σ) (w : World σ) (fn : Fn)
    (fptr : σ → kvpair → σ × kvpair) : World σ × Datum :=
  let sz := api.MDBM_PAGE_SIZE w.db
  let delta := 1
  let (w, p) := malloc w sz
  let inp : kvpair := { key := { dptr := p, dsize := sz }, val := { dptr := none, dsize := 0 } }
  let ret : Datum := { dptr := none, dsize := 0 }
  let (db, out) := fptr w.db inp
  let w := w.call db fn inp.key inp.val 0
  let (w, ret) :=
    if out.key.dsize > 0 then
      let n := out.key.dsize - delta
      let (w, q) := malloc w n
      match q with
      | none => (w, ({ dptr := none, dsize := 0 } : Datum))
      | some buf =>
        (w, ({ dptr := some (memcpy buf 0 ((out.key.dptr.getD []).drop delta) n),
               dsize := n } : Datum))
    else (w, ret)
  (free w inp.key.dptr, ret)

/-- `ldbm_firstkey` (lines 836-842). -/
def ldbm_firstkey {σ : Type} (api : Api σ) (w : World σ) : World σ × Datum :=
  ldbm_get_next api w Fn.mdbm_first api.mdbm_first

/-- `ldbm_nextkey` (lines 847-858): the `key` argument is not used. -/
def ldbm_nextkey {σ : Type} (api : Api σ) (w : World σ) (_key : Datum) : World σ × Datum :=
  ldbm_get_next api w Fn.mdbm_next api.mdbm_next

/-- Modelled from the spec: the flag `REPLACE` ("overwrite existing key") of
`Store`; `ldbm.h`, which defines `LDBM_REPLACE`, is not part of the sources.
Only the reference store below reads this bit. -/
def LDBM_REPLACE : Nat := 1

/-- The reference store as an MDBM library: `mdbm_store` records the value under the
exact key bytes it is handed, `mdbm_fetch` reports the size of the stored value
and fills the supplied buffer when it is large enough. -/
def mapApi : Api MapStore where
  mdbm_open s _ _ _ _ := (s, true)
  mdbm_close s := s
  mdbm_sync s := s
  mdbm_fetch s k :=
    match s.cells.lookup k.key.bytes with
    | none => (s, Datum.empty)
    | some v =>
      match k.val.dptr with
      | some buf =>
        if v.length ≤ k.val.dsize then
          (s, { dptr := some (memcpy buf 0 v v.length), dsize := v.length })
        else
          (s, { dptr := none, dsize := v.length })
      | none => (s, { dptr := none, dsize := v.length })
  mdbm_store s key data flags :=
    if flags &&& LDBM_REPLACE ≠ 0 ∨ s.cells.lookup key.bytes = none then
      ({ s with cells := (key.bytes, data.bytes) :: s.cells.filter (fun c => c.1 != key.bytes) }, 0)
    else
      (s, 1)
  mdbm_delete s key :=
    if (s.cells.lookup key.bytes).isSome then
      ({ s with cells := s.cells.filter (fun c => c.1 != key.bytes) }, 0)
    else
      (s, -1)
  mdbm_first s _ := ({ s with pos := 0 }, s.keyAt 0)
  mdbm_next s _ := ({ s with pos := s.pos + 1 }, s.keyAt (s.pos + 1))
  MDBM_PAGE_SIZE _ := MDBM_PG_SZ

/-- A store whose value outgrows every buffer offered (a value a concurrent
writer keeps extending; `ldbm_fetch` holds no mutex in this variant):
`mdbm_fetch` reports one byte more than the buffer supplied and hands back a
datum pointing into its own page. -/
def growingApi : Api Unit where
  mdbm_open s _ _ _ _ := (s, true)
  mdbm_close s := s
  mdbm_sync s := s
  mdbm_fetch s k := (s, { dptr := some (List.replicate (k.val.dsize + 1) 7),
                          dsize := k.val.dsize + 1 })
  mdbm_store s _ _ _ := (s, 0)
  mdbm_delete s _ := (s, 0)
  mdbm_first s _ := (s, { key := Datum.empty, val := Datum.empty })
  mdbm_next s _ := (s, { key := Datum.empty, val := Datum.empty })
  MDBM_PAGE_SIZE _ := MDBM_PG_SZ

end Mdbm

end Ldbm

namespace Ldbm

/-! ## `ldbm_initialize` -/

/-- The value an `int` holds after a computation yields `x` (32-bit two's
complement, wrapping). -/
def wrapInt32 (x : Int) : Int :=
  (x + 2 ^ 31) % 2 ^ 32 - 2 ^ 31

/-- The statics of the non-reentrant `ldbm_initialize`: the `initialized`
counter and the number of times `ldbm_big_mutex` has been initialised. -/
structure InitState where
  initialized : Int
  mutexInits : Nat
deriving DecidableEq, Repr

/-- The state at program start (`static int initialized = 0`). -/
def InitState.start : InitState :=
  { initialized := 0, mutexInits := 0 }

/-- `ldbm_initialize` of the non-reentrant variants (lines 58-65):
`if(initialized++) return; ldap_pvt_thread_mutex_init(&ldbm_big_mutex);`. -/
def ldbm_initialize (s : InitState) : InitState :=
  let old := s.initialized
  let s := { s with initialized := wrapInt32 (old + 1) }
  if old ≠ 0 then s
  else { s with mutexInits := s.mutexInits + 1 }

/-- The state after `n` successive calls. -/
def ldbm_initialize_n (n : Nat) (s : InitState) : InitState :=
  Nat.iterate ldbm_initialize n s

namespace Db2

/-- The statics of the Berkeley DB 2 `ldbm_initialize`: the counter, the state
of `ldbm_Env` as `db_appinit` left it, and the number of `db_appinit` calls. -/
structure InitState (ε : Type) where
  initialized : Int
  env : ε
  appinits : Nat

/-- How a call ends: it returns, or the process exits with a status. -/
inductive InitResult (ε : Type)
  | returned (s : InitState ε)
  | exited (code : Int)

/-- `ldbm_initialize` (lines 90-120).  `zeroEnv` is `ldbm_Env` after the
`memset` and the two assignments; `db_appinit` returns the environment it
leaves and its status. -/
def ldbm_initialize {ε : Type} (zeroEnv : ε) (db_appinit : ε → ε × Int)
    (s : InitState ε) : InitResult ε :=
  let old := s.initialized
  let s := { s with initialized := wrapInt32 (old + 1) }
  if old ≠ 0 then InitResult.returned s
  else
    let (env, err) := db_appinit zeroEnv
    let s := { s with env := env, appinits := s.appinits + 1 }
    if err ≠ 0 then InitResult.exited 1
    else InitResult.returned s

/-- `n` successive calls; once the process has exited nothing more runs. -/
def ldbm_initialize_n {ε : Type} (zeroEnv : ε) (db_appinit : ε → ε × Int) :
    Nat → InitState ε → InitResult ε
  | 0, s => InitResult.returned s
  | n + 1, s =>
    match ldbm_initialize zeroEnv db_appinit s with
    | InitResult.returned s1 => ldbm_initialize_n zeroEnv db_appinit n s1
    | InitResult.exited c => InitResult.exited c

end Db2

/-! ## Locking discipline -/

/-- Scan a trace with the state of `ldbm_big_mutex`: a lock needs the mutex
free, an unlock and a native call need it held, and it is free at the end. -/
def lockedFrom : Bool → List Event → Bool
  | held, [] => !held
  | held, Event.lock :: tl => !held && lockedFrom true tl
  | held, Event.unlock :: tl => held && lockedFrom false tl
  | held, Event.native _ _ _ _ :: tl => held && lockedFrom held tl
  | held, Event.malloc _ _ :: tl => lockedFrom held tl
  | held, Event.free :: tl => lockedFrom held tl

/-- Every native call of the trace lies inside a lock/unlock pair and the mutex
is released at the end. -/
def wellLocked (tr : List Event) : Bool :=
  lockedFrom false tr

/-! ## Observations on traces -/

/-- The key argument of an event when it is a native call of `fn`. -/
def Event.nativeKey? (fn : Fn) : Event → Option Datum
  | Event.native f key _ _ => if f = fn then some key else none
  | _ => none

/-- The key arguments of the native calls of `fn`, in order. -/
def nativeKeys (fn : Fn) (tr : List Event) : List Datum :=
  tr.filterMap (Event.nativeKey? fn)

/-- The flags arguments of the native calls of `fn`, in order. -/
def nativeFlags (fn : Fn) (tr : List Event) : List Nat :=
  tr.filterMap (fun e => match e with
    | Event.native f _ _ flags => if f = fn then some flags else none
    | _ => none)

/-- The native calls of a trace, in order. -/
def nativeCalls (tr : List Event) : List Event :=
  tr.filter (fun e => match e with
    | Event.native _ _ _ _ => true
    | _ => false)

/-- A run that returns normally with a result satisfying `P`. -/
def okAnd {α : Type} (r : Except Fault α) (P : α → Prop) : Prop :=
  match r with
  | .ok a => P a
  | .error _ => False

end Ldbm

/-! ## `perl_back_db_config` (servers/slapd/back-perl/config.c) -/

namespace PerlBack

/-- A Perl scalar as the glue code handles it: a string made by `newSVpv`, an
object reference, an integer, or `undef`. -/
inductive SV
  | pv (s : String)
  | ref (id : Nat)
  | iv (i : Int)
  | undef
deriving DecidableEq, Repr

/-- The two fields of `PerlBackend` the loader touches. -/
structure PerlBackend where
  pb_obj_ref : SV
  pb_filter_search_results : Int
deriving DecidableEq, Repr

/-- The embedded interpreter over its state `π`.  `eval_pv` / `require_pv` take
the bytes of the C string and return the error text when the error variable is
true afterwards; `call_method` (called with `G_SCALAR`) returns the items it left
on the stack, whose number is the `count` of the C code; `SvIV` is the integer
value (an `IV`) that `POPi` reads from a scalar. -/
structure Interp (π : Type) where
  eval_pv : π → List UInt8 → π × Option String
  require_pv : π → List UInt8 → π × Option String
  call_method : π → String → List SV → π × List SV
  SvIV : SV → Int

/-- Observable actions of the loader, in program order. -/
inductive PEvent
  | eval_pv (code : List UInt8)
  | require_pv (file : List UInt8)
  | call_method (name : String) (args : List SV)
  | debug (msg : String)
  | stderr (msg : String)
deriving DecidableEq, Repr

/-- How a call of the loader ends: it returns a status, the process exits
(`exit`), Perl unwinds (`croak`), or `argv[0]` is read from an empty line. -/
inductive Outcome (π : Type)
  | returned (rc : Int) (st : π) (pb : PerlBackend) (log : List PEvent)
  | exited (code : Int) (st : π) (pb : PerlBackend) (log : List PEvent)
  | croaked (msg : String) (log : List PEvent)
  | fault

/-- `EXIT_FAILURE`. -/
def EXIT_FAILURE : Int := 1

/-- `snprintf(buf, size, ...)`: the bytes (UTF-8) of the formatted text, cut to
`size - 1` bytes. -/
def snprintf (size : Nat) (text : String) : List UInt8 :=
  (text.toList.flatMap String.utf8EncodeChar).take (size - 1)

/-- `strcasecmp` on character lists: `0` when equal up to ASCII case, otherwise
the difference of the first pair of folded characters that differ. -/
def strcasecmpL : List Char → List Char → Int
  | [], [] => 0
  | [], c :: _ => 0 - (c.toLower.toNat : Int)
  | c :: _, [] => (c.toLower.toNat : Int)
  | a :: as, b :: bs =>
    if a.toLower = b.toLower then strcasecmpL as bs
    else (a.toLower.toNat : Int) - (b.toLower.toNat : Int)

/-- `strcasecmp` on strings. -/
def strcasecmp (a b : String) : Int :=
  strcasecmpL a.toList b.toList

/-- `perl_back_db_config` (config.c lines 32-158).  `EVAL_BUF_SIZE` is the macro
of `perl_back.h`, a header that is not part of the sources; `perl56` is the
build flag `PERL_IS_5_6`; `argv` holds the `argc` words of the directive line.
`return_code` is an `int`: the assignment `return_code = POPi` narrows the `IV`
to 32 bits. -/
def perl_back_db_config {π : Type} (EVAL_BUF_SIZE : Nat) (perl56 : Bool) (interp : Interp π) (st : π)
    (perl_back : PerlBackend) (fname : String) (lineno : Int) (argv : List String) :
    Outcome π :=
  match argv with
  | [] => Outcome.fault
  | argv0 :: rest =>
    let argc := (argv0 :: rest).length
    if strcasecmp argv0 "perlModule" = 0 then
      if argc < 2 then
        Outcome.returned 1 st perl_back
          [PEvent.debug (fname ++ ".pm: line " ++ toString lineno ++
            ": missing module in \"perlModule <module>\" line\n")]
      else
        let argv1 := rest.headD ""
        let eval_str :=
          if perl56 then snprintf EVAL_BUF_SIZE ("use " ++ argv1 ++ ";")
          else snprintf EVAL_BUF_SIZE (argv1 ++ ".pm")
        let (st, err) :=
          if perl56 then interp.eval_pv st eval_str else interp.require_pv st eval_str
        let log := [if perl56 then PEvent.eval_pv eval_str else PEvent.require_pv eval_str]
        match err with
        | some msg => Outcome.returned 0 st perl_back (log ++ [PEvent.stderr ("Error " ++ msg ++ "\n")])
        | none =>
          let (st, res) := interp.call_method st "new" [SV.pv argv1]
          let log := log ++ [PEvent.call_method "new" [SV.pv argv1]]
          match res with
          | [v] => Outcome.returned 0 st { perl_back with pb_obj_ref := v } log
          | _ => Outcome.croaked "Big trouble in config\n" log
    else if strcasecmp argv0 "perlModulePath" = 0 then
      if argc < 2 then
        Outcome.returned 1 st perl_back
          [PEvent.stderr (fname ++ ": line " ++ toString lineno ++
            ": missing module in \"PerlModulePath <module>\" line\n")]
      else
        let argv1 := rest.headD ""
        let eval_str := snprintf EVAL_BUF_SIZE ("push @INC, '" ++ argv1 ++ "';")
        let (st, _loc_sv) := interp.eval_pv st eval_str
        Outcome.returned 0 st perl_back [PEvent.eval_pv eval_str]
    else if strcasecmp argv0 "filterSearchResults" = 0 then
      Outcome.returned 0 st { perl_back with pb_filter_search_results := 1 } []
    else
      let args := perl_back.pb_obj_ref :: (argv0 :: rest).map SV.pv
      let (st, res) := interp.call_method st "config" args
      let log := [PEvent.call_method "config" args]
      match res with
      | [v] =>
        let return_code := Ldbm.wrapInt32 (interp.SvIV v)
        if return_code ≠ 0 then
          Outcome.exited EXIT_FAILURE st perl_back
            (log ++ [PEvent.stderr ("Unknown perl backend config: " ++ argv0 ++ "\n")])
        else
          Outcome.returned 0 st perl_back log
      | _ => Outcome.croaked "Big trouble in config\n" log

/-- An interpreter whose every method returns one integer scalar: `0` when it is
handed an object and two words, `1` otherwise. -/
def countingInterp : Interp Unit where
  eval_pv st _ := (st, none)
  require_pv st _ := (st, none)
  call_method st _ args := (st, [SV.iv (if args.length = 3 then 0 else 1)])
  SvIV v :=
    match v with
    | SV.iv i => i
    | _ => 0

/-- An interpreter whose every method returns the one integer scalar `r`. -/
def constInterp (r : Int) : Interp Unit where
  eval_pv st _ := (st, none)
  require_pv st _ := (st, none)
  call_method st _ _ := (st, [SV.iv r])
  SvIV v :=
    match v with
    | SV.iv i => i
    | _ => 0

end PerlBack

/-! # Theorems -/

namespace Ldbm

@[simp] theorem trace_emit {σ : Type} (w : World σ) (e : Event) :
    (w.emit e).trace = w.trace ++ [e] := rfl

@[simp] theorem trace_call {σ : Type} (w : World σ) (db : σ) (fn : Fn) (k v : Datum)
    (f : Nat) : (w.call db fn k v f).trace = w.trace ++ [Event.native fn k v f] := rfl

@[simp] theorem trace_malloc {σ : Type} (w : World σ) (n : Nat) :
    (malloc w n).1.trace = w.trace ++ [Event.malloc n (w.allocOk w.nalloc)] := rfl

@[simp] theorem trace_free {σ : Type} (w : World σ) (p : Option (List Byte)) :
    (free w p).trace = w.trace ++ (if p.isSome then [Event.free] else []) := by
  cases p <;> simp [free]

@[simp] theorem allocOk_emit {σ : Type} (w : World σ) (e : Event) :
    (w.emit e).allocOk = w.allocOk := rfl

@[simp] theorem allocOk_call {σ : Type} (w : World σ) (db : σ) (fn : Fn) (k v : Datum)
    (f : Nat) : (w.call db fn k v f).allocOk = w.allocOk := rfl

@[simp] theorem allocOk_malloc {σ : Type} (w : World σ) (n : Nat) :
    (malloc w n).1.allocOk = w.allocOk := rfl

@[simp] theorem allocOk_free {σ : Type} (w : World σ) (p : Option (List Byte)) :
    (free w p).allocOk = w.allocOk := by
  cases p <;> rfl

@[simp] theorem nalloc_emit {σ : Type} (w : World σ) (e : Event) :
    (w.emit e).nalloc = w.nalloc := rfl

@[simp] theorem nalloc_call {σ : Type} (w : World σ) (db : σ) (fn : Fn) (k v : Datum)
    (f : Nat) : (w.call db fn k v f).nalloc = w.nalloc := rfl

@[simp] theorem nalloc_malloc {σ : Type} (w : World σ) (n : Nat) :
    (malloc w n).1.nalloc = w.nalloc + 1 := rfl

@[simp] theorem nalloc_free {σ : Type} (w : World σ) (p : Option (List Byte)) :
    (free w p).nalloc = w.nalloc := by
  cases p <;> rfl

theorem malloc_snd_ok {σ : Type} (w : World σ) (n : Nat) (h : w.allocOk w.nalloc = true) :
    (malloc w n).2 = some (List.replicate n 0) := by
  simp [malloc, h]

theorem malloc_snd_fail {σ : Type} (w : World σ) (n : Nat) (h : w.allocOk w.nalloc = false) :
    (malloc w n).2 = none := by
  simp [malloc, h]

@[simp] theorem nativeCalls_append (a b : List Event) :
    nativeCalls (a ++ b) = nativeCalls a ++ nativeCalls b := by
  simp [nativeCalls]

@[simp] theorem nativeCalls_nil : nativeCalls [] = [] := rfl

@[simp] theorem nativeCalls_native (f : Fn) (k v : Datum) (fl : Nat) (tl : List Event) :
    nativeCalls (Event.native f k v fl :: tl) = Event.native f k v fl :: nativeCalls tl := by
  simp [nativeCalls, List.filter_cons]

@[simp] theorem nativeCalls_malloc (n : Nat) (ok : Bool) (tl : List Event) :
    nativeCalls (Event.malloc n ok :: tl) = nativeCalls tl := by
  simp [nativeCalls, List.filter_cons]

@[simp] theorem nativeCalls_free (tl : List Event) :
    nativeCalls (Event.free :: tl) = nativeCalls tl := by
  simp [nativeCalls, List.filter_cons]

@[simp] theorem nativeCalls_lock (tl : List Event) :
    nativeCalls (Event.lock :: tl) = nativeCalls tl := by
  simp [nativeCalls, List.filter_cons]

@[simp] theorem nativeCalls_unlock (tl : List Event) :
    nativeCalls (Event.unlock :: tl) = nativeCalls tl := by
  simp [nativeCalls, List.filter_cons]

@[simp] theorem nativeCalls_ite (c : Prop) [Decidable c] (a b : List Event) :
    nativeCalls (if c then a else b) = if c then nativeCalls a else nativeCalls b := by
  split <;> rfl

@[simp] theorem nativeKeys_append (fn : Fn) (a b : List Event) :
    nativeKeys fn (a ++ b) = nativeKeys fn a ++ nativeKeys fn b := by
  simp [nativeKeys]

@[simp] theorem nativeKeys_nil (fn : Fn) : nativeKeys fn [] = [] := rfl

@[simp] theorem nativeKeys_native (fn f : Fn) (k v : Datum) (fl : Nat) (tl : List Event) :
    nativeKeys fn (Event.native f k v fl :: tl) =
      if f = fn then k :: nativeKeys fn tl else nativeKeys fn tl := by
  by_cases h : f = fn <;> simp [nativeKeys, Event.nativeKey?, List.filterMap_cons, h]

@[simp] theorem nativeKeys_malloc (fn : Fn) (n : Nat) (ok : Bool) (tl : List Event) :
    nativeKeys fn (Event.malloc n ok :: tl) = nativeKeys fn tl := by
  simp [nativeKeys, Event.nativeKey?, List.filterMap_cons]

@[simp] theorem nativeKeys_free (fn : Fn) (tl : List Event) :
    nativeKeys fn (Event.free :: tl) = nativeKeys fn tl := by
  simp [nativeKeys, Event.nativeKey?, List.filterMap_cons]

@[simp] theorem nativeKeys_lock (fn : Fn) (tl : List Event) :
    nativeKeys fn (Event.lock :: tl) = nativeKeys fn tl := by
  simp [nativeKeys, Event.nativeKey?, List.filterMap_cons]

@[simp] theorem nativeKeys_unlock (fn : Fn) (tl : List Event) :
    nativeKeys fn (Event.unlock :: tl) = nativeKeys fn tl := by
  simp [nativeKeys, Event.nativeKey?, List.filterMap_cons]

@[simp] theorem nativeKeys_ite (fn : Fn) (c : Prop) [Decidable c] (a b : List Event) :
    nativeKeys fn (if c then a else b) = if c then nativeKeys fn a else nativeKeys fn b := by
  split <;> rfl

namespace Mdbm

theorem no_null_key_ok {σ : Type} (w : World σ) (k : List Byte)
    (h : w.allocOk w.nalloc = true) :
    no_null_key w (Datum.ofBytes k) =
      .ok ({ w with nalloc := w.nalloc + 1,
                    trace := w.trace ++ [Event.malloc (k.length + 1) true] },
           { dptr := some (sentinel :: k), dsize := k.length + 1 }) := by
  simp [no_null_key, malloc, h, Datum.ofBytes, memcpy, List.replicate_succ]
  omega

theorem ofBytes_bytes (b : List Byte) : (Datum.ofBytes b).bytes = b := by
  simp [Datum.ofBytes, Datum.bytes]

/-- What `ldbm_store` leaves in the map store: the value is bound to the
sentinel-prefixed key. -/
theorem store_map (sync : Nat) (w : World MapStore) (k v : List Byte)
    (h : w.allocOk w.nalloc = true) :
    ∃ w1, ldbm_store sync mapApi w (Datum.ofBytes k) (Datum.ofBytes v) LDBM_REPLACE = .ok (w1, 0) ∧
      w1.allocOk = w.allocOk ∧
      w1.db.cells.lookup (sentinel :: k) = some v := by
  simp only [ldbm_store, no_null_key_ok w k h]
  simp [mapApi, World.call, free, World.emit, LDBM_REPLACE, Datum.bytes, Datum.ofBytes]
  split <;> simp

/-- The value `ldbm_fetch` reads back from the map store. -/
theorem fetch_map (w : World MapStore) (k v : List Byte)
    (h : ∀ i, w.allocOk i = true)
    (hv : w.db.cells.lookup (sentinel :: k) = some v) :
    ∃ w2 d, ldbm_fetch mapApi w (Datum.ofBytes k) = .ok (w2, d) ∧
      d.dsize = v.length ∧ d.bytes = v := by
  cases v with
  | nil =>
    simp [ldbm_fetch, no_null_key_ok w k (h _), ldbm_fetch_loop, MAX_MDBM_RETRY, mapApi,
      Datum.bytes, hv, World.call, free, World.emit]
    exact ⟨_, _, ⟨rfl, rfl⟩, by simp⟩
  | cons b bs =>
    simp [ldbm_fetch, no_null_key_ok w k (h _), ldbm_fetch_loop, MAX_MDBM_RETRY, mapApi,
      Datum.bytes, hv, World.call, free, World.emit, malloc, h, memcpy]
    exact ⟨_, _, ⟨rfl, rfl⟩, by simp⟩

/-- C1: in the MDBM variant over the map store, with every allocation
succeeding, `ldbm_store(db, k, v, LDBM_REPLACE)` returns `0` and the following
`ldbm_fetch(db, k)` returns a datum whose size is the length of `v` and whose
bytes are `v`; this holds for every key, the empty key and the key `0x00`
included. -/
theorem mdbm_store_fetch_roundtrip (sync : Nat) (s : MapStore) (a : Nat → Bool)
    (ha : ∀ i, a i = true) (k v : List Byte) :
    ∃ w1 w2 d,
      ldbm_store sync mapApi (World.init s a) (Datum.ofBytes k) (Datum.ofBytes v) LDBM_REPLACE
        = .ok (w1, 0) ∧
      ldbm_fetch mapApi w1 (Datum.ofBytes k) = .ok (w2, d) ∧
      d.dsize = v.length ∧ d.bytes = v := by
  obtain ⟨w1, h1, hal, hlk⟩ := store_map sync (World.init s a) k v (ha _)
  have hal1 : ∀ i, w1.allocOk i = true := by
    intro i
    rw [hal]
    exact ha i
  obtain ⟨w2, d, h2, hsz, hb⟩ := fetch_map w1 k v hal1 hlk
  exact ⟨w1, w2, d, h1, h2, hsz, hb⟩

/-- C1 at the one-byte key `0x00` in an empty store. -/
theorem mdbm_store_fetch_roundtrip_witness :
    (∀ i : Nat, (fun _ : Nat => true) i = true) ∧
    ∃ w1 w2 d,
      ldbm_store 0x80000000 mapApi (World.init { cells := [], pos := 0 } (fun _ => true))
        (Datum.ofBytes [0]) (Datum.ofBytes [7, 0, 9]) LDBM_REPLACE = .ok (w1, 0) ∧
      ldbm_fetch mapApi w1 (Datum.ofBytes [0]) = .ok (w2, d) ∧
      d.dsize = [(7 : Byte), 0, 9].length ∧ d.bytes = [7, 0, 9] :=
  ⟨fun _ => rfl,
   mdbm_store_fetch_roundtrip 0x80000000 { cells := [], pos := 0 } (fun _ => true)
     (fun _ => rfl)
     [0] [7, 0, 9]⟩

theorem okAnd_ok {α : Type} (a : α) (P : α → Prop) :
    okAnd (Except.ok a : Except Fault α) P ↔ P a := Iff.rfl

theorem okAnd_mono {α : Type} {r : Except Fault α} {P Q : α → Prop} (h : okAnd r P)
    (hpq : ∀ a, P a → Q a) : okAnd r Q := by
  cases r with
  | ok a => exact hpq a h
  | error e => exact h.elim

/-- C3 (the code at a failing input): against a store that reports a size
larger than the buffer on every attempt, `ldbm_fetch` stops after
`MAX_MDBM_RETRY` rounds (ten `mdbm_fetch` calls, the last one with a 5-byte
buffer) and returns the last datum of the backend, of size 6, not an empty
result. -/
theorem mdbm_fetch_retry_ceiling_returns_oversized :
    (ldbm_fetch growingApi (World.init () (fun _ => true)) (Datum.ofBytes [1])).toOption.map
        (fun r => (r.2.dsize, (nativeKeys Fn.mdbm_fetch r.1.trace).length,
          (r.1.trace.filterMap (fun e => match e with
            | Event.native _ _ val _ => some val.dsize
            | _ => none)).getLast?))
      = some (6, 10, some 5) := by
  decide

/-- Against a store that always reports more than the buffer holds, the retry
loop runs every remaining round (two `mdbm_fetch` calls each) and returns a
datum of positive size. -/
theorem fetch_loop_oversize {σ : Type} (api : Api σ)
    (hover : ∀ s k, (api.mdbm_fetch s k).2.dsize > k.val.dsize) :
    ∀ (fuel : Nat) (w : World σ) (k : kvpair) (retry : Nat),
      retry < MAX_MDBM_RETRY → MAX_MDBM_RETRY = retry + fuel →
      (∀ i, w.allocOk i = true) →
      okAnd (ldbm_fetch_loop api fuel w k retry) (fun r =>
        0 < r.2.dsize ∧
        (nativeKeys Fn.mdbm_fetch r.1.trace).length
          = (nativeKeys Fn.mdbm_fetch w.trace).length + 2 * fuel) := by
  intro fuel
  induction fuel with
  | zero =>
    intro w k retry h1 h2
    omega
  | succ n ih =>
    intro w k retry h1 h2 ha
    have hpos : (api.mdbm_fetch w.db k).2.dsize > 0 :=
      Nat.lt_of_le_of_lt (Nat.zero_le _) (hover w.db k)
    simp only [ldbm_fetch_loop, hpos, if_true]
    rw [malloc_snd_ok _ _ (by simpa using ha _)]
    simp only [hover, true_and]
    split
    · rename_i hc
      refine okAnd_mono (ih _ _ _ hc (by omega) (by simpa using ha)) ?_
      intro r hr
      refine ⟨hr.1, ?_⟩
      rw [hr.2]
      simp
      omega
    · have hn : n = 0 := by omega
      subst hn
      simp only [okAnd]
      refine ⟨Nat.lt_of_le_of_lt (Nat.zero_le _) (hover _ _), ?_⟩
      simp

/-- For every store that reports a size larger than the supplied buffer on
every attempt (allocations succeeding), `ldbm_fetch` returns after exactly
`MAX_MDBM_RETRY` rounds, and what it returns has a positive size. -/
theorem fetch_oversize_general {σ : Type} (api : Api σ) (s : σ) (a : Nat → Bool)
    (key : List Byte) (ha : ∀ i, a i = true)
    (hover : ∀ s k, (api.mdbm_fetch s k).2.dsize > k.val.dsize) :
    okAnd (ldbm_fetch api (World.init s a) (Datum.ofBytes key)) (fun r =>
      0 < r.2.dsize ∧
      (nativeKeys Fn.mdbm_fetch r.1.trace).length = 2 * MAX_MDBM_RETRY) := by
  simp only [ldbm_fetch, no_null_key_ok (World.init s a) key (ha _)]
  have hl := fetch_loop_oversize api hover MAX_MDBM_RETRY
    { World.init s a with nalloc := (World.init s a).nalloc + 1,
                          trace := (World.init s a).trace ++ [Event.malloc (key.length + 1) true] }
    { key := { dptr := some (sentinel :: key), dsize := key.length + 1 },
      val := { dptr := none, dsize := 0 } } 0 (by decide) (by omega) ha
  revert hl
  generalize ldbm_fetch_loop api MAX_MDBM_RETRY _ _ 0 = r
  intro hl
  cases r with
  | error e => exact hl.elim
  | ok r =>
    simp only [okAnd] at hl ⊢
    refine ⟨hl.1, ?_⟩
    have h2 := hl.2
    simp [World.init] at h2
    simpa using h2

/-- In the retry loop a failed allocation is answered by `d.dsize = 0; break`:
a run that recorded a failed allocation returns size `0`. -/
theorem fetch_loop_alloc {σ : Type} (api : Api σ) :
    ∀ (fuel : Nat) (w : World σ) (k : kvpair) (retry : Nat),
      (∀ n, Event.malloc n false ∉ w.trace) →
      ∀ r, ldbm_fetch_loop api fuel w k retry = .ok r →
        (∃ n, Event.malloc n false ∈ r.1.trace) → r.2.dsize = 0 := by
  intro fuel
  induction fuel with
  | zero =>
    intro w k retry _ r hr
    simp [ldbm_fetch_loop] at hr
  | succ n ih =>
    intro w k retry hinv r
    simp only [ldbm_fetch_loop]
    split
    · cases hm : (free (w.call (api.mdbm_fetch w.db k).1 Fn.mdbm_fetch k.key k.val 0)
          k.val.dptr).allocOk
          (free (w.call (api.mdbm_fetch w.db k).1 Fn.mdbm_fetch k.key k.val 0) k.val.dptr).nalloc with
      | false =>
        rw [malloc_snd_fail _ _ hm]
        intro hr _
        cases hr
        rfl
      | true =>
        rw [malloc_snd_ok _ _ hm]
        simp only []
        split
        · refine ih _ _ _ ?_ r
          intro m
          simp only [allocOk_free, allocOk_call, nalloc_free, nalloc_call] at hm
          cases hp : k.val.dptr <;> simp [hinv, hm, hp, free, World.call, World.emit]
        · intro hr hex
          cases hr
          exfalso
          obtain ⟨m, hmem⟩ := hex
          simp only [allocOk_free, allocOk_call, nalloc_free, nalloc_call] at hm
          cases hp : k.val.dptr <;>
            simp [hinv, hm, hp, free, World.call, World.emit] at hmem
    · split
      · refine ih _ _ _ ?_ r
        intro m
        simp [hinv]
      · intro hr hex
        cases hr
        exfalso
        obtain ⟨m, hmem⟩ := hex
        simp [hinv] at hmem

/-- C8: in the MDBM variant `ldbm_nextkey` does not depend on the previous-key
argument: for every store state and any two keys the two calls produce the same
world (hence the same native calls) and the same key, and the one native call
made is `mdbm_next` on a key buffer of the page size with no value buffer. -/
theorem mdbm_nextkey_ignores_key {σ : Type} (api : Api σ) (w : World σ) (k1 k2 : Datum) :
    ldbm_nextkey api w k1 = ldbm_nextkey api w k2 ∧
    ∃ buf, nativeCalls (ldbm_nextkey api w k1).1.trace =
      nativeCalls w.trace ++
        [Event.native Fn.mdbm_next { dptr := buf, dsize := api.MDBM_PAGE_SIZE w.db }
          { dptr := none, dsize := 0 } 0] := by
  refine ⟨rfl, (malloc w (api.MDBM_PAGE_SIZE w.db)).2, ?_⟩
  simp only [ldbm_nextkey, ldbm_get_next]
  split
  · split <;> simp
  · simp

end Mdbm

/-- C5 (as amended): when the allocation of the caller's copy fails, the result
signals emptiness.  `ldbm_datum_dup` of a non-empty datum returns a `NULL`
pointer; the MDBM `ldbm_fetch` returns size `0` whenever its run recorded a
failed allocation; the MDBM `ldbm_get_next` returns size `0` and a `NULL`
pointer whenever an allocation after that of its input buffer failed. -/
theorem alloc_failure_signals_empty {σ τ : Type} (w : World τ) (data : Datum)
    (api : Mdbm.Api σ) (s : σ) (a : Nat → Bool) (key : Datum) (fn : Fn)
    (fptr : σ → kvpair → σ × kvpair) :
    (data.dsize ≠ 0 → w.allocOk w.nalloc = false → (ldbm_datum_dup w data).2.dptr = none) ∧
    (∀ r, Mdbm.ldbm_fetch api (World.init s a) key = .ok r →
      (∃ n, Event.malloc n false ∈ r.1.trace) → r.2.dsize = 0) ∧
    ((∃ n, Event.malloc n false ∈ (Mdbm.ldbm_get_next api (World.init s a) fn fptr).1.trace.tail) →
      (Mdbm.ldbm_get_next api (World.init s a) fn fptr).2 = { dptr := none, dsize := 0 }) := by
  refine ⟨?_, ?_, ?_⟩
  · intro hd hf
    simp [ldbm_datum_dup, hd, malloc, hf]
  · intro r hr hex
    cases h0 : a 0 with
    | false =>
      simp [Mdbm.ldbm_fetch, Mdbm.no_null_key, malloc, World.init, h0] at hr
    | true =>
      simp only [Mdbm.ldbm_fetch, Mdbm.no_null_key, malloc, World.init, h0, if_true] at hr
      split at hr
      · cases hr
      · rename_i w1 d hl
        cases hr
        refine Mdbm.fetch_loop_alloc api _ _ _ _ ?_ (w1, d) hl ?_
        · intro n
          simp
        · obtain ⟨n, hn⟩ := hex
          refine ⟨n, ?_⟩
          simpa using hn
  · intro hex
    obtain ⟨n, hn⟩ := hex
    revert hn
    simp only [Mdbm.ldbm_get_next, malloc, World.init]
    generalize fptr s _ = out
    intro hn
    by_cases hd : 0 < out.2.key.dsize
    · cases h1 : a 1 with
      | false => simp [hd, h1]
      | true =>
        exfalso
        cases h0 : a 0 <;> simp [World.call, hd, h1, h0, free, World.emit] at hn
    · simp [hd]

/-- C5 amended, at a 1-byte datum with a failing allocator and at a map store
holding one binding whose value/key copy cannot be allocated. -/
theorem alloc_failure_signals_empty_witness :
    ((Datum.ofBytes [5]).dsize ≠ 0 ∧
      (ldbm_datum_dup (World.init () (fun _ => false)) (Datum.ofBytes [5])).2.dptr = none) ∧
    (∃ r, Mdbm.ldbm_fetch Mdbm.mapApi
        (World.init { cells := [([108, 1], [2])], pos := 0 } (fun i => decide (i = 0)))
        (Datum.ofBytes [1]) = .ok r ∧ r.2.dsize = 0) ∧
    (Mdbm.ldbm_get_next Mdbm.mapApi
        (World.init { cells := [([108, 1], [2])], pos := 0 } (fun i => decide (i = 0)))
        Fn.mdbm_first Mdbm.mapApi.mdbm_first).2 = { dptr := none, dsize := 0 } :=
  have T := alloc_failure_signals_empty (World.init () (fun _ => false)) (Datum.ofBytes [5])
    Mdbm.mapApi { cells := [([108, 1], [2])], pos := 0 } (fun i => decide (i = 0))
    (Datum.ofBytes [1]) Fn.mdbm_first Mdbm.mapApi.mdbm_first
  ⟨⟨by decide, T.1 (by decide) rfl⟩,
   ⟨_, rfl, T.2.1 _ rfl ⟨1, by decide⟩⟩,
   T.2.2 ⟨1, by decide⟩⟩

/-- C5 (counterexample to the claim as stated): `ldbm_datum_dup` of a one-byte
datum under a failing allocator returns a `NULL` pointer with size `1`, not
size `0`; and the MDBM `ldbm_fetch` whose value allocation fails returns size
`0` with the pointer the backend last handed back, not `NULL`. -/
theorem alloc_failure_not_empty_datum :
    (ldbm_datum_dup (World.init () (fun _ => false)) (Datum.ofBytes [5])).2
      = { dptr := none, dsize := 1 } ∧
    ¬ ((ldbm_datum_dup (World.init () (fun _ => false)) (Datum.ofBytes [5])).2.dsize = 0 ∧
       (ldbm_datum_dup (World.init () (fun _ => false)) (Datum.ofBytes [5])).2.dptr = none) ∧
    (Mdbm.ldbm_fetch Mdbm.growingApi (World.init () (fun i => decide (i = 0)))
        (Datum.ofBytes [1])).toOption.map (fun r => r.2)
      = some { dptr := some [7], dsize := 0 } := by
  decide

@[simp] theorem trace_datum_dup {σ : Type} (w : World σ) (d : Datum) :
    (ldbm_datum_dup w d).1.trace =
      w.trace ++ (if d.dsize = 0 then [] else [Event.malloc d.dsize (w.allocOk w.nalloc)]) := by
  unfold ldbm_datum_dup
  by_cases h : d.dsize = 0
  · simp [h]
  · cases ha : w.allocOk w.nalloc <;> simp [h, malloc, ha]

/-- In the Berkeley DB (1.85 and 2) and GDBM variants the native calls of
`ldbm_delete` are the delete followed by exactly one sync, whatever status the
delete returned. -/
theorem delete_then_sync {σ : Type} (a1 : Db1.Api σ) (a2 : Db2.Api σ) (g : Gdbm.Api σ)
    (w : World σ) (key : Datum) :
    nativeCalls (Db1.ldbm_delete a1 w key).1.trace = nativeCalls w.trace ++
      [Event.native Fn.db_del key Datum.empty 0,
       Event.native Fn.db_sync Datum.empty Datum.empty 0] ∧
    nativeCalls (Db2.ldbm_delete a2 w key).1.trace = nativeCalls w.trace ++
      [Event.native Fn.db_del key Datum.empty 0,
       Event.native Fn.db_sync Datum.empty Datum.empty 0] ∧
    nativeCalls (Gdbm.ldbm_delete g w key).1.trace = nativeCalls w.trace ++
      [Event.native Fn.gdbm_delete key Datum.empty 0,
       Event.native Fn.gdbm_sync Datum.empty Datum.empty 0] := by
  simp [Db1.ldbm_delete, Db2.ldbm_delete, Gdbm.ldbm_delete]

/-- In the MDBM variant `ldbm_delete` makes one native call, `mdbm_delete`: no
`mdbm_sync` follows. -/
theorem mdbm_delete_native {σ : Type} (api : Mdbm.Api σ) (w : World σ) (key : Datum)
    (r : World σ × Int) (h : Mdbm.ldbm_delete api w key = .ok r) :
    ∃ K, nativeCalls r.1.trace = nativeCalls w.trace ++
      [Event.native Fn.mdbm_delete K Datum.empty 0] := by
  cases ha : w.allocOk w.nalloc with
  | false => simp [Mdbm.ldbm_delete, Mdbm.no_null_key, malloc, ha] at h
  | true =>
    simp only [Mdbm.ldbm_delete, Mdbm.no_null_key, malloc, ha, if_true] at h
    cases h
    refine ⟨{ dptr := some (memcpy ((List.replicate (key.dsize + 1) 0).set 0 Mdbm.sentinel) 1
      (key.dptr.getD []) key.dsize), dsize := key.dsize + 1 }, ?_⟩
    simp

/-- C4 (the code at a failing input): in the MDBM variant, deleting the key
`0x01` that is present in the map store returns `0` and the only native call is
`mdbm_delete` on the sentinel-prefixed key; `mdbm_sync` is not invoked. -/
theorem mdbm_delete_issues_no_sync :
    (Mdbm.ldbm_delete Mdbm.mapApi
        (World.init { cells := [([108, 1], [2])], pos := 0 } (fun _ => true))
        (Datum.ofBytes [1])).toOption.map (fun r => (r.2, nativeCalls r.1.trace))
      = some (0, [Event.native Fn.mdbm_delete { dptr := some [108, 1], dsize := 2 }
                    Datum.empty 0]) := by
  decide

theorem dup_bytes {σ : Type} (w : World σ) (d : Datum) (h : w.allocOk w.nalloc = true) :
    (ldbm_datum_dup w d).2.dsize = d.dsize ∧ (ldbm_datum_dup w d).2.bytes = d.bytes := by
  unfold ldbm_datum_dup
  by_cases h0 : d.dsize = 0
  · simp [h0, Datum.bytes]
  · simp [h0, malloc, h, Datum.bytes, memcpy]

/-- C6: in the Berkeley DB variants `ldbm_fetch` returns the empty buffer (`NULL`
pointer, size `0`) whenever the native `get` returns a non-zero status; when
`get` returns `0` the result has the size and the bytes of the datum the backend
produced (in 1.85 provided the duplication's allocation succeeds, in 2.x it is
that very datum). -/
theorem berkeley_fetch_result {σ : Type} (a1 : Db1.Api σ) (a2 : Db2.Api σ) (w : World σ)
    (key : Datum) :
    ((a1.get w.db key 0).2.1 ≠ 0 →
      (Db1.ldbm_fetch a1 w key).2.dptr = none ∧ (Db1.ldbm_fetch a1 w key).2.dsize = 0) ∧
    ((a1.get w.db key 0).2.1 = 0 → w.allocOk w.nalloc = true →
      (Db1.ldbm_fetch a1 w key).2.dsize = (a1.get w.db key 0).2.2.dsize ∧
      (Db1.ldbm_fetch a1 w key).2.bytes = (a1.get w.db key 0).2.2.bytes) ∧
    ((a2.get w.db key { Db2.ldbm_datum_init with flags := Db2.DB_DBT_MALLOC } 0).2.1 ≠ 0 →
      (Db2.ldbm_fetch a2 w key).2.dptr = none ∧ (Db2.ldbm_fetch a2 w key).2.dsize = 0) ∧
    ((a2.get w.db key { Db2.ldbm_datum_init with flags := Db2.DB_DBT_MALLOC } 0).2.1 = 0 →
      (Db2.ldbm_fetch a2 w key).2
        = (a2.get w.db key { Db2.ldbm_datum_init with flags := Db2.DB_DBT_MALLOC } 0).2.2) := by
  refine ⟨?_, ?_, ?_, ?_⟩
  · intro h
    simp [Db1.ldbm_fetch, World.emit, h]
  · intro h ha
    simp only [Db1.ldbm_fetch, World.emit, h, if_true]
    exact dup_bytes _ _ ha
  · intro h
    simp [Db2.ldbm_fetch, h]
  · intro h
    simp [Db2.ldbm_fetch, h]

/-- C6 at a table holding one binding: a miss (`0x09`) and a hit (`0x01`). -/
theorem berkeley_fetch_result_witness :
    ((Db1.ldbm_fetch Db1.tableApi (World.init { cells := [([1], [4, 5])], pos := 0 } (fun _ => true))
        (Datum.ofBytes [9])).2.dptr = none ∧
      (Db1.ldbm_fetch Db1.tableApi (World.init { cells := [([1], [4, 5])], pos := 0 } (fun _ => true))
        (Datum.ofBytes [9])).2.dsize = 0) ∧
    ((Db1.ldbm_fetch Db1.tableApi (World.init { cells := [([1], [4, 5])], pos := 0 } (fun _ => true))
        (Datum.ofBytes [1])).2.dsize = 2 ∧
      (Db1.ldbm_fetch Db1.tableApi (World.init { cells := [([1], [4, 5])], pos := 0 } (fun _ => true))
        (Datum.ofBytes [1])).2.bytes = [4, 5]) ∧
    ((Db2.ldbm_fetch Db2.tableApi (World.init { cells := [([1], [4, 5])], pos := 0 } (fun _ => true))
        (Datum.ofBytes [9])).2.dptr = none ∧
      (Db2.ldbm_fetch Db2.tableApi (World.init { cells := [([1], [4, 5])], pos := 0 } (fun _ => true))
        (Datum.ofBytes [9])).2.dsize = 0) ∧
    (Db2.ldbm_fetch Db2.tableApi (World.init { cells := [([1], [4, 5])], pos := 0 } (fun _ => true))
        (Datum.ofBytes [1])).2 = { dptr := some [4, 5], dsize := 2, flags := Db2.DB_DBT_MALLOC } :=
  ⟨(berkeley_fetch_result Db1.tableApi Db2.tableApi
      (World.init { cells := [([1], [4, 5])], pos := 0 } (fun _ => true)) (Datum.ofBytes [9])).1 (by decide),
   (berkeley_fetch_result Db1.tableApi Db2.tableApi
      (World.init { cells := [([1], [4, 5])], pos := 0 } (fun _ => true)) (Datum.ofBytes [1])).2.1 (by decide) rfl,
   (berkeley_fetch_result Db1.tableApi Db2.tableApi
      (World.init { cells := [([1], [4, 5])], pos := 0 } (fun _ => true)) (Datum.ofBytes [9])).2.2.1 (by decide),
   (berkeley_fetch_result Db1.tableApi Db2.tableApi
      (World.init { cells := [([1], [4, 5])], pos := 0 } (fun _ => true)) (Datum.ofBytes [1])).2.2.2 (by decide)⟩

/-- Allocation events do not affect the locking scan. -/
theorem lockedFrom_dup (b : Bool) (c : Prop) [Decidable c] (n : Nat) (ok : Bool)
    (tl : List Event) :
    lockedFrom b ((if c then [] else [Event.malloc n ok]) ++ tl) = lockedFrom b tl := by
  split <;> simp [lockedFrom]

/-- The operations of the 1.85 variant keep every native call inside one
lock/unlock pair. -/
theorem db1_locked {σ : Type} (sync : Nat) (api : Db1.Api σ) (s : σ) (a : Nat → Bool) (name : String)
    (rw mode cache : Int) (key data : Datum) (flags : Nat) :
    wellLocked (Db1.ldbm_open api (World.init s a) name rw mode cache).1.trace = true ∧
    wellLocked (Db1.ldbm_close api (World.init s a)).trace = true ∧
    wellLocked (Db1.ldbm_sync api (World.init s a)).trace = true ∧
    wellLocked (Db1.ldbm_fetch api (World.init s a) key).1.trace = true ∧
    wellLocked (Db1.ldbm_store sync api (World.init s a) key data flags).1.trace = true ∧
    wellLocked (Db1.ldbm_delete api (World.init s a) key).1.trace = true ∧
    wellLocked (Db1.ldbm_firstkey api (World.init s a) key).1.trace = true ∧
    wellLocked (Db1.ldbm_nextkey api (World.init s a) key).1.trace = true := by
  refine ⟨?_, ?_, ?_, ?_, ?_, ?_, ?_, ?_⟩
  · simp [Db1.ldbm_open, World.init, wellLocked, lockedFrom]
  · simp [Db1.ldbm_close, World.init, wellLocked, lockedFrom]
  · simp [Db1.ldbm_sync, World.init, wellLocked, lockedFrom]
  · simp only [Db1.ldbm_fetch]
    split <;> simp [World.init, wellLocked, lockedFrom, lockedFrom_dup]
  · simp only [Db1.ldbm_store]
    split <;> simp [World.init, wellLocked, lockedFrom]
  · simp [Db1.ldbm_delete, World.init, wellLocked, lockedFrom]
  · simp only [Db1.ldbm_firstkey, Db1.seq_key]
    split <;> simp [World.init, wellLocked, lockedFrom, lockedFrom_dup]
  · simp only [Db1.ldbm_nextkey, Db1.seq_key]
    split <;> simp [World.init, wellLocked, lockedFrom, lockedFrom_dup]

/-- The operations of the GDBM variant keep every native call inside one
lock/unlock pair, on both return paths of `ldbm_open`. -/
theorem gdbm_locked {σ : Type} (sync : Nat) (api : Gdbm.Api σ) (s : σ) (a : Nat → Bool) (name : String)
    (rw : Nat) (mode cache : Int) (key data : Datum) (flags : Nat) :
    wellLocked (Gdbm.ldbm_open api (World.init s a) name rw mode cache).1.trace = true ∧
    wellLocked (Gdbm.ldbm_close api (World.init s a)).trace = true ∧
    wellLocked (Gdbm.ldbm_sync api (World.init s a)).trace = true ∧
    wellLocked (Gdbm.ldbm_fetch api (World.init s a) key).1.trace = true ∧
    wellLocked (Gdbm.ldbm_store sync api (World.init s a) key data flags).1.trace = true ∧
    wellLocked (Gdbm.ldbm_delete api (World.init s a) key).1.trace = true ∧
    wellLocked (Gdbm.ldbm_firstkey api (World.init s a)).1.trace = true ∧
    wellLocked (Gdbm.ldbm_nextkey api (World.init s a) key).1.trace = true := by
  refine ⟨?_, ?_, ?_, ?_, ?_, ?_, ?_, ?_⟩
  · simp only [Gdbm.ldbm_open]
    split
    · simp [World.init, wellLocked, lockedFrom]
    · split
      · split <;> simp [World.init, wellLocked, lockedFrom]
      · simp [World.init, wellLocked, lockedFrom]
  · simp [Gdbm.ldbm_close, World.init, wellLocked, lockedFrom]
  · simp [Gdbm.ldbm_sync, World.init, wellLocked, lockedFrom]
  · simp [Gdbm.ldbm_fetch, World.init, wellLocked, lockedFrom]
  · simp only [Gdbm.ldbm_store]
    split <;> simp [World.init, wellLocked, lockedFrom]
  · simp [Gdbm.ldbm_delete, World.init, wellLocked, lockedFrom]
  · simp [Gdbm.ldbm_firstkey, World.init, wellLocked, lockedFrom]
  · simp [Gdbm.ldbm_nextkey, World.init, wellLocked, lockedFrom]

/-- The operations of the NDBM variant keep every native call inside one
lock/unlock pair (`ldbm_sync` makes no native call at all). -/
theorem ndbm_locked {σ : Type} (api : Ndbm.Api σ) (s : σ) (a : Nat → Bool) (name : String)
    (rw mode cache : Int) (key data : Datum) (flags : Nat) :
    wellLocked (Ndbm.ldbm_open api (World.init s a) name rw mode cache).1.trace = true ∧
    wellLocked (Ndbm.ldbm_close api (World.init s a)).trace = true ∧
    wellLocked (Ndbm.ldbm_sync api (World.init s a)).trace = true ∧
    wellLocked (Ndbm.ldbm_fetch api (World.init s a) key).1.trace = true ∧
    wellLocked (Ndbm.ldbm_store api (World.init s a) key data flags).1.trace = true ∧
    wellLocked (Ndbm.ldbm_delete api (World.init s a) key).1.trace = true ∧
    wellLocked (Ndbm.ldbm_firstkey api (World.init s a)).1.trace = true ∧
    wellLocked (Ndbm.ldbm_nextkey api (World.init s a) key).1.trace = true := by
  refine ⟨?_, ?_, ?_, ?_, ?_, ?_, ?_, ?_⟩
  · simp [Ndbm.ldbm_open, World.init, wellLocked, lockedFrom]
  · simp [Ndbm.ldbm_close, World.init, wellLocked, lockedFrom]
  · simp [Ndbm.ldbm_sync, World.init, wellLocked, lockedFrom]
  · simp [Ndbm.ldbm_fetch, World.init, wellLocked, lockedFrom, lockedFrom_dup]
  · simp [Ndbm.ldbm_store, World.init, wellLocked, lockedFrom]
  · simp [Ndbm.ldbm_delete, World.init, wellLocked, lockedFrom]
  · simp [Ndbm.ldbm_firstkey, World.init, wellLocked, lockedFrom]
  · simp [Ndbm.ldbm_nextkey, World.init, wellLocked, lockedFrom]

/-- In the MDBM variant `ldbm_open` (both return paths), `ldbm_close` and
`ldbm_sync` keep their native call inside one lock/unlock pair. -/
theorem mdbm_locked {σ : Type} (api : Mdbm.Api σ) (s : σ) (a : Nat → Bool) (name : String)
    (rw mode cache : Int) :
    wellLocked (Mdbm.ldbm_open api (World.init s a) name rw mode cache).1.trace = true ∧
    wellLocked (Mdbm.ldbm_close api (World.init s a)).trace = true ∧
    wellLocked (Mdbm.ldbm_sync api (World.init s a)).trace = true := by
  refine ⟨?_, ?_, ?_⟩
  · simp only [Mdbm.ldbm_open]
    split <;> simp [World.init, wellLocked, lockedFrom]
  · simp [Mdbm.ldbm_close, World.init, wellLocked, lockedFrom]
  · simp [Mdbm.ldbm_sync, World.init, wellLocked, lockedFrom]

/-- The retry loop of the MDBM `ldbm_fetch` never takes the mutex. -/
theorem fetch_loop_nolock {σ : Type} (api : Mdbm.Api σ) :
    ∀ (fuel : Nat) (w : World σ) (k : kvpair) (retry : Nat),
      Event.lock ∉ w.trace →
      ∀ r, Mdbm.ldbm_fetch_loop api fuel w k retry = .ok r → Event.lock ∉ r.1.trace := by
  intro fuel
  induction fuel with
  | zero =>
    intro w k retry _ r hr
    simp [Mdbm.ldbm_fetch_loop] at hr
  | succ n ih =>
    intro w k retry hinv r
    simp only [Mdbm.ldbm_fetch_loop]
    split
    · split
      · split
        · refine ih _ _ _ ?_ r
          cases hp : k.val.dptr <;> simp [hinv, hp]
        · intro hr
          cases hr
          cases hp : k.val.dptr <;> simp [hinv, hp]
      · intro hr
        cases hr
        cases hp : k.val.dptr <;> simp [hinv, hp]
    · split
      · refine ih _ _ _ ?_ r
        simp [hinv]
      · intro hr
        cases hr
        simp [hinv]

/-- In the MDBM variant `ldbm_fetch`, `ldbm_store`, `ldbm_delete`,
`ldbm_firstkey` and `ldbm_nextkey` never take the mutex. -/
theorem mdbm_unlocked {σ : Type} (sync : Nat) (api : Mdbm.Api σ) (s : σ) (a : Nat → Bool)
    (key data : Datum) (flags : Nat) :
    (∀ r, Mdbm.ldbm_fetch api (World.init s a) key = .ok r → Event.lock ∉ r.1.trace) ∧
    (∀ r, Mdbm.ldbm_store sync api (World.init s a) key data flags = .ok r →
      Event.lock ∉ r.1.trace) ∧
    (∀ r, Mdbm.ldbm_delete api (World.init s a) key = .ok r → Event.lock ∉ r.1.trace) ∧
    Event.lock ∉ (Mdbm.ldbm_firstkey api (World.init s a)).1.trace ∧
    Event.lock ∉ (Mdbm.ldbm_nextkey api (World.init s a) key).1.trace := by
  refine ⟨?_, ?_, ?_, ?_, ?_⟩
  · intro r hr
    cases h0 : a 0 with
    | false => simp [Mdbm.ldbm_fetch, Mdbm.no_null_key, malloc, World.init, h0] at hr
    | true =>
      simp only [Mdbm.ldbm_fetch, Mdbm.no_null_key, malloc, World.init, h0, if_true] at hr
      split at hr
      · cases hr
      · rename_i w1 d hl
        cases hr
        have := fetch_loop_nolock api _ _ _ _ (by simp) (w1, d) hl
        simpa using this
  · intro r hr
    cases h0 : a 0 with
    | false => simp [Mdbm.ldbm_store, Mdbm.no_null_key, malloc, World.init, h0] at hr
    | true =>
      simp only [Mdbm.ldbm_store, Mdbm.no_null_key, malloc, World.init, h0, if_true] at hr
      cases hr
      by_cases hs : flags &&& sync = 0 <;> simp [hs]
  · intro r hr
    cases h0 : a 0 with
    | false => simp [Mdbm.ldbm_delete, Mdbm.no_null_key, malloc, World.init, h0] at hr
    | true =>
      simp only [Mdbm.ldbm_delete, Mdbm.no_null_key, malloc, World.init, h0, if_true] at hr
      cases hr
      simp
  · simp only [Mdbm.ldbm_firstkey, Mdbm.ldbm_get_next]
    split
    · split <;> cases h0 : a 0 <;> simp [World.init, malloc, h0]
    · cases h0 : a 0 <;> simp [World.init, malloc, h0]
  · simp only [Mdbm.ldbm_nextkey, Mdbm.ldbm_get_next]
    split
    · split <;> cases h0 : a 0 <;> simp [World.init, malloc, h0]
    · cases h0 : a 0 <;> simp [World.init, malloc, h0]

/-- C7 (as amended): in the Berkeley DB 1.85, GDBM and NDBM variants each of
`ldbm_open`, `ldbm_close`, `ldbm_sync`, `ldbm_fetch`, `ldbm_store`,
`ldbm_delete`, `ldbm_firstkey`, `ldbm_nextkey`, and in the MDBM variant
`ldbm_open`, `ldbm_close` and `ldbm_sync`, acquire `ldbm_big_mutex` before the
first native call and release it after the last one on every return path; the
MDBM `ldbm_fetch`, `ldbm_store`, `ldbm_delete`, `ldbm_firstkey` and
`ldbm_nextkey` never take the mutex. -/
theorem nonreentrant_ops_locked {σ : Type} (sync : Nat) (d : Db1.Api σ) (g : Gdbm.Api σ) (n : Ndbm.Api σ)
    (m : Mdbm.Api σ) (s : σ) (a : Nat → Bool) (name : String) (rwn : Nat)
    (rw mode cache : Int) (key data : Datum) (flags : Nat) :
    (wellLocked (Db1.ldbm_open d (World.init s a) name rw mode cache).1.trace = true ∧
     wellLocked (Db1.ldbm_close d (World.init s a)).trace = true ∧
     wellLocked (Db1.ldbm_sync d (World.init s a)).trace = true ∧
     wellLocked (Db1.ldbm_fetch d (World.init s a) key).1.trace = true ∧
     wellLocked (Db1.ldbm_store sync d (World.init s a) key data flags).1.trace = true ∧
     wellLocked (Db1.ldbm_delete d (World.init s a) key).1.trace = true ∧
     wellLocked (Db1.ldbm_firstkey d (World.init s a) key).1.trace = true ∧
     wellLocked (Db1.ldbm_nextkey d (World.init s a) key).1.trace = true) ∧
    (wellLocked (Gdbm.ldbm_open g (World.init s a) name rwn mode cache).1.trace = true ∧
     wellLocked (Gdbm.ldbm_close g (World.init s a)).trace = true ∧
     wellLocked (Gdbm.ldbm_sync g (World.init s a)).trace = true ∧
     wellLocked (Gdbm.ldbm_fetch g (World.init s a) key).1.trace = true ∧
     wellLocked (Gdbm.ldbm_store sync g (World.init s a) key data flags).1.trace = true ∧
     wellLocked (Gdbm.ldbm_delete g (World.init s a) key).1.trace = true ∧
     wellLocked (Gdbm.ldbm_firstkey g (World.init s a)).1.trace = true ∧
     wellLocked (Gdbm.ldbm_nextkey g (World.init s a) key).1.trace = true) ∧
    (wellLocked (Ndbm.ldbm_open n (World.init s a) name rw mode cache).1.trace = true ∧
     wellLocked (Ndbm.ldbm_close n (World.init s a)).trace = true ∧
     wellLocked (Ndbm.ldbm_sync n (World.init s a)).trace = true ∧
     wellLocked (Ndbm.ldbm_fetch n (World.init s a) key).1.trace = true ∧
     wellLocked (Ndbm.ldbm_store n (World.init s a) key data flags).1.trace = true ∧
     wellLocked (Ndbm.ldbm_delete n (World.init s a) key).1.trace = true ∧
     wellLocked (Ndbm.ldbm_firstkey n (World.init s a)).1.trace = true ∧
     wellLocked (Ndbm.ldbm_nextkey n (World.init s a) key).1.trace = true) ∧
    (wellLocked (Mdbm.ldbm_open m (World.init s a) name rw mode cache).1.trace = true ∧
     wellLocked (Mdbm.ldbm_close m (World.init s a)).trace = true ∧
     wellLocked (Mdbm.ldbm_sync m (World.init s a)).trace = true) ∧
    ((∀ r, Mdbm.ldbm_fetch m (World.init s a) key = .ok r → Event.lock ∉ r.1.trace) ∧
     (∀ r, Mdbm.ldbm_store sync m (World.init s a) key data flags = .ok r →
        Event.lock ∉ r.1.trace) ∧
     (∀ r, Mdbm.ldbm_delete m (World.init s a) key = .ok r → Event.lock ∉ r.1.trace) ∧
     Event.lock ∉ (Mdbm.ldbm_firstkey m (World.init s a)).1.trace ∧
     Event.lock ∉ (Mdbm.ldbm_nextkey m (World.init s a) key).1.trace) :=
  ⟨db1_locked sync d s a name rw mode cache key data flags,
   gdbm_locked sync g s a name rwn mode cache key data flags,
   ndbm_locked n s a name rw mode cache key data flags,
   mdbm_locked m s a name rw mode cache,
   mdbm_unlocked sync m s a key data flags⟩

/-- C7 (counterexample to the claim as stated): in the MDBM variant over the map
store, `ldbm_fetch`, `ldbm_store`, `ldbm_delete`, `ldbm_firstkey` and
`ldbm_nextkey` make their native calls without holding the mutex. -/
theorem mdbm_native_calls_outside_lock :
    (Mdbm.ldbm_fetch Mdbm.mapApi
        (World.init { cells := [([108, 1], [2])], pos := 0 } (fun _ => true))
        (Datum.ofBytes [1])).toOption.map
          (fun r => ((nativeCalls r.1.trace).length, wellLocked r.1.trace))
      = some (2, false) ∧
    (Mdbm.ldbm_store 0x80000000 Mdbm.mapApi
        (World.init { cells := [([108, 1], [2])], pos := 0 } (fun _ => true))
        (Datum.ofBytes [1]) (Datum.ofBytes [3]) Mdbm.LDBM_REPLACE).toOption.map
          (fun r => ((nativeCalls r.1.trace).length, wellLocked r.1.trace))
      = some (1, false) ∧
    (Mdbm.ldbm_delete Mdbm.mapApi
        (World.init { cells := [([108, 1], [2])], pos := 0 } (fun _ => true))
        (Datum.ofBytes [1])).toOption.map
          (fun r => ((nativeCalls r.1.trace).length, wellLocked r.1.trace))
      = some (1, false) ∧
    wellLocked (Mdbm.ldbm_firstkey Mdbm.mapApi
        (World.init { cells := [([108, 1], [2])], pos := 0 } (fun _ => true))).1.trace = false ∧
    wellLocked (Mdbm.ldbm_nextkey Mdbm.mapApi
        (World.init { cells := [([108, 1], [2])], pos := 0 } (fun _ => true))
        Datum.empty).1.trace = false := by
  decide

/-- C7 as amended, at the reference store holding one binding. -/
theorem nonreentrant_ops_locked_witness :
    wellLocked (Db1.ldbm_fetch Db1.tableApi
      (World.init { cells := [([108, 1], [2])], pos := 0 } (fun _ => true))
      (Datum.ofBytes [1])).1.trace = true ∧
    (∃ r, Mdbm.ldbm_fetch Mdbm.mapApi
      (World.init { cells := [([108, 1], [2])], pos := 0 } (fun _ => true))
      (Datum.ofBytes [1]) = .ok r ∧ Event.lock ∉ r.1.trace) ∧
    (∃ r, Mdbm.ldbm_store 0x80000000 Mdbm.mapApi
      (World.init { cells := [([108, 1], [2])], pos := 0 } (fun _ => true))
      (Datum.ofBytes [1]) (Datum.ofBytes [3]) Mdbm.LDBM_REPLACE = .ok r ∧
      Event.lock ∉ r.1.trace) ∧
    (∃ r, Mdbm.ldbm_delete Mdbm.mapApi
      (World.init { cells := [([108, 1], [2])], pos := 0 } (fun _ => true))
      (Datum.ofBytes [1]) = .ok r ∧ Event.lock ∉ r.1.trace) :=
  have T := nonreentrant_ops_locked 0x80000000 Db1.tableApi Gdbm.mapApi Ndbm.mapApi Mdbm.mapApi
    { cells := [([108, 1], [2])], pos := 0 } (fun _ => true) "id2entry" 2 2 384 0
    (Datum.ofBytes [1]) (Datum.ofBytes [3]) Mdbm.LDBM_REPLACE
  ⟨T.1.2.2.2.1, ⟨_, rfl, T.2.2.2.2.1 _ rfl⟩, ⟨_, rfl, T.2.2.2.2.2.1 _ rfl⟩,
   ⟨_, rfl, T.2.2.2.2.2.2.1 _ rfl⟩⟩

/-- The state after `n` calls of the non-reentrant `ldbm_initialize` from
program start: the counter is `n` wrapped to an `int`, and the mutex has been
initialised once for every time the counter read `0`. -/
theorem initialize_n_state (n : Nat) :
    ldbm_initialize_n n InitState.start =
      { initialized := wrapInt32 n, mutexInits := (n + (2 ^ 32 - 1)) / 2 ^ 32 } := by
  induction n with
  | zero => rfl
  | succ k ih =>
    unfold ldbm_initialize_n at ih ⊢
    rw [Function.iterate_succ_apply', ih]
    unfold ldbm_initialize
    by_cases h : wrapInt32 (k : Int) = 0
    · simp only [h, ne_eq, not_true_eq_false, if_false]
      unfold wrapInt32 at h ⊢
      refine congrArg₂ InitState.mk ?_ ?_
      · push_cast
        omega
      · omega
    · simp only [ne_eq, h, not_false_eq_true, if_true]
      unfold wrapInt32 at h ⊢
      refine congrArg₂ InitState.mk ?_ ?_
      · push_cast
        omega
      · omega

theorem wrapInt32_succ (k : Nat) : wrapInt32 (wrapInt32 (k : Int) + 1) = wrapInt32 ((k + 1 : Nat) : Int) := by
  unfold wrapInt32
  push_cast
  omega

theorem wrapInt32_eq_zero (k : Nat) : wrapInt32 (k : Int) = 0 ↔ k % 2 ^ 32 = 0 := by
  unfold wrapInt32
  omega

/-- The Berkeley DB 2 `ldbm_initialize` called `n` more times when the counter
holds `k` wrapped to an `int` and `db_appinit` succeeds: `db_appinit` runs once
for every call that reads the counter as `0`. -/
theorem db2_initialize_n_state {ε : Type} (z : ε) (f : ε → ε × Int) (hf : (f z).2 = 0) :
    ∀ (n k c : Nat) (e : ε),
      ∃ e1, Db2.ldbm_initialize_n z f n { initialized := wrapInt32 k, env := e, appinits := c }
        = Db2.InitResult.returned
            { initialized := wrapInt32 ((k + n : Nat) : Int), env := e1,
              appinits := c + ((k + n + (2 ^ 32 - 1)) / 2 ^ 32 - (k + (2 ^ 32 - 1)) / 2 ^ 32) } := by
  intro n
  induction n with
  | zero =>
    intro k c e
    refine ⟨e, ?_⟩
    rw [Db2.ldbm_initialize_n, Nat.add_zero, Nat.sub_self, Nat.add_zero]
  | succ m ih =>
    intro k c e
    by_cases h : wrapInt32 (k : Int) = 0
    · obtain ⟨e1, he1⟩ := ih (k + 1) (c + 1) (f z).1
      refine ⟨e1, ?_⟩
      have hk := (wrapInt32_eq_zero k).1 h
      have hw : wrapInt32 (0 + 1) = wrapInt32 ((k + 1 : Nat) : Int) := by
        rw [← wrapInt32_succ k, h]
      have hidx : k + 1 + m = k + (m + 1) := by omega
      have hcnt : c + 1 + ((k + 1 + m + (2 ^ 32 - 1)) / 2 ^ 32 - (k + 1 + (2 ^ 32 - 1)) / 2 ^ 32)
          = c + ((k + (m + 1) + (2 ^ 32 - 1)) / 2 ^ 32 - (k + (2 ^ 32 - 1)) / 2 ^ 32) := by
        omega
      rw [Db2.ldbm_initialize_n, Db2.ldbm_initialize]
      simp only [h, ne_eq, not_true_eq_false, if_false, hf]
      rw [hw, he1, hcnt, hidx]
    · obtain ⟨e1, he1⟩ := ih (k + 1) c e
      refine ⟨e1, ?_⟩
      have hk : k % 2 ^ 32 ≠ 0 := fun hz => h ((wrapInt32_eq_zero k).2 hz)
      have hidx : k + 1 + m = k + (m + 1) := by omega
      have hcnt : c + ((k + 1 + m + (2 ^ 32 - 1)) / 2 ^ 32 - (k + 1 + (2 ^ 32 - 1)) / 2 ^ 32)
          = c + ((k + (m + 1) + (2 ^ 32 - 1)) / 2 ^ 32 - (k + (2 ^ 32 - 1)) / 2 ^ 32) := by
        omega
      rw [Db2.ldbm_initialize_n, Db2.ldbm_initialize]
      simp only [h, ne_eq, not_false_eq_true, if_true]
      rw [wrapInt32_succ k, he1, hcnt, hidx]

/-- Up to `2 ^ 32` calls the non-reentrant `ldbm_initialize` initialises the
mutex exactly once, on the first call. -/
theorem initialize_once_below_wrap (n : Nat) (h1 : 1 ≤ n) (h2 : n ≤ 2 ^ 32) :
    (ldbm_initialize_n n InitState.start).mutexInits = 1 := by
  rw [initialize_n_state]
  show (n + (2 ^ 32 - 1)) / 2 ^ 32 = 1
  omega

/-- C9 (the code at a failing input): after `2 ^ 32` calls the `int` counter
`initialized` has wrapped to `0`, so call number `2 ^ 32 + 1` runs the setup a
second time, both in the non-reentrant variants (mutex initialised twice) and
in the Berkeley DB 2 variant (`db_appinit` called twice). -/
theorem initialize_reruns_setup_after_wrap :
    ldbm_initialize_n (2 ^ 32) InitState.start = { initialized := 0, mutexInits := 1 } ∧
    (ldbm_initialize_n (2 ^ 32 + 1) InitState.start).mutexInits = 2 ∧
    ∃ e1, Db2.ldbm_initialize_n () (fun e => (e, 0)) (2 ^ 32 + 1)
        { initialized := 0, env := (), appinits := 0 }
      = Db2.InitResult.returned { initialized := 1, env := e1, appinits := 2 } := by
  refine ⟨?_, ?_, ?_⟩
  · rw [initialize_n_state]
    refine congrArg₂ InitState.mk ?_ ?_
    · unfold wrapInt32
      norm_num
    · norm_num
  · rw [initialize_n_state]
    show (2 ^ 32 + 1 + (2 ^ 32 - 1)) / 2 ^ 32 = 2
    norm_num
  · obtain ⟨e1, he1⟩ := db2_initialize_n_state () (fun e => (e, 0)) rfl (2 ^ 32 + 1) 0 0 ()
    refine ⟨e1, ?_⟩
    have h0 : wrapInt32 ((0 : Nat) : Int) = 0 := by
      unfold wrapInt32
      norm_num
    have h1 : wrapInt32 ((0 + (2 ^ 32 + 1) : Nat) : Int) = 1 := by
      unfold wrapInt32
      norm_num
    have hc : 0 + ((0 + (2 ^ 32 + 1) + (2 ^ 32 - 1)) / 2 ^ 32 - (0 + (2 ^ 32 - 1)) / 2 ^ 32)
        = 2 := by
      norm_num
    rw [h0, h1, hc] at he1
    exact he1

end Ldbm

namespace Ldbm

@[simp] theorem nativeFlags_append (fn : Fn) (a b : List Event) :
    nativeFlags fn (a ++ b) = nativeFlags fn a ++ nativeFlags fn b := by
  simp [nativeFlags]

@[simp] theorem nativeFlags_nil (fn : Fn) : nativeFlags fn [] = [] := rfl

@[simp] theorem nativeFlags_native (fn f : Fn) (k v : Datum) (fl : Nat) (tl : List Event) :
    nativeFlags fn (Event.native f k v fl :: tl) =
      if f = fn then fl :: nativeFlags fn tl else nativeFlags fn tl := by
  by_cases h : f = fn <;> simp [nativeFlags, List.filterMap_cons, h]

@[simp] theorem nativeFlags_malloc (fn : Fn) (n : Nat) (ok : Bool) (tl : List Event) :
    nativeFlags fn (Event.malloc n ok :: tl) = nativeFlags fn tl := by
  simp [nativeFlags, List.filterMap_cons]

@[simp] theorem nativeFlags_free (fn : Fn) (tl : List Event) :
    nativeFlags fn (Event.free :: tl) = nativeFlags fn tl := by
  simp [nativeFlags, List.filterMap_cons]

@[simp] theorem nativeFlags_lock (fn : Fn) (tl : List Event) :
    nativeFlags fn (Event.lock :: tl) = nativeFlags fn tl := by
  simp [nativeFlags, List.filterMap_cons]

@[simp] theorem nativeFlags_unlock (fn : Fn) (tl : List Event) :
    nativeFlags fn (Event.unlock :: tl) = nativeFlags fn tl := by
  simp [nativeFlags, List.filterMap_cons]

/-- The word `clearBits flags mask` is `flags & ~mask` on 32 bits: bit `i` is set
exactly when it is set in `flags`, not set in `mask`, and `i < 32`. -/
theorem clearBits_testBit (flags mask i : Nat) :
    (clearBits flags mask).testBit i =
      (flags.testBit i && Bool.xor (mask.testBit i) (decide (i < 32))) := by
  unfold clearBits
  rw [Nat.testBit_and, Nat.testBit_xor, show (0xFFFFFFFF : Nat) = 2 ^ 32 - 1 by norm_num,
    Nat.testBit_two_pow_sub_one]

/-- The word `flags & ~mask` has no bit of a 32-bit `mask` set. -/
theorem clearBits_and_mask (flags mask : Nat) (hm : mask < 2 ^ 32) :
    clearBits flags mask &&& mask = 0 := by
  apply Nat.eq_of_testBit_eq
  intro i
  rw [Nat.testBit_and, clearBits_testBit, Nat.zero_testBit]
  by_cases hi : i < 32
  · cases flags.testBit i <;> cases mask.testBit i <;> simp [hi]
  · have hbit : mask.testBit i = false := by
      apply Nat.testBit_eq_false_of_lt
      exact Nat.lt_of_lt_of_le hm (Nat.pow_le_pow_right (by decide) (by omega))
    simp [hbit]

/-- In the Berkeley DB (1.85 and 2) and GDBM variants the one native put/store
call of `ldbm_store` receives `flags & ~LDBM_SYNC`, for every value of the
macro. -/
theorem store_flags_masked {σ : Type} (sync : Nat) (d1 : Db1.Api σ) (d2 : Db2.Api σ)
    (g : Gdbm.Api σ) (s : σ) (a : Nat → Bool) (key data : Datum) (flags : Nat) :
    nativeFlags Fn.db_put (Db1.ldbm_store sync d1 (World.init s a) key data flags).1.trace
      = [clearBits flags sync] ∧
    nativeFlags Fn.db_put (Db2.ldbm_store sync d2 (World.init s a) key data flags).1.trace
      = [clearBits flags sync] ∧
    nativeFlags Fn.gdbm_store (Gdbm.ldbm_store sync g (World.init s a) key data flags).1.trace
      = [clearBits flags sync] := by
  refine ⟨?_, ?_, ?_⟩
  · simp only [Db1.ldbm_store]
    split <;> simp [World.init]
  · simp only [Db2.ldbm_store]
    split <;> simp [World.init]
  · simp only [Gdbm.ldbm_store]
    split <;> simp [World.init]

/-- In the MDBM and NDBM variants the native store call of `ldbm_store` receives
the caller's `flags` unchanged. -/
theorem store_flags_unmasked {σ : Type} (sync : Nat) (m : Mdbm.Api σ) (n : Ndbm.Api σ)
    (s : σ) (a : Nat → Bool) (key data : Datum) (flags : Nat) :
    (∀ r, Mdbm.ldbm_store sync m (World.init s a) key data flags = .ok r →
      nativeFlags Fn.mdbm_store r.1.trace = [flags]) ∧
    nativeFlags Fn.dbm_store (Ndbm.ldbm_store n (World.init s a) key data flags).1.trace
      = [flags] := by
  refine ⟨?_, ?_⟩
  · intro r hr
    cases h0 : a 0 with
    | false => simp [Mdbm.ldbm_store, Mdbm.no_null_key, malloc, World.init, h0] at hr
    | true =>
      simp only [Mdbm.ldbm_store, Mdbm.no_null_key, malloc, World.init, h0, if_true] at hr
      cases hr
      by_cases hs : flags &&& sync = 0 <;> simp [hs]
  · simp [Ndbm.ldbm_store, World.init]

/-- C11 (the code at a failing input): with `LDBM_SYNC = 0x80000000` and
`flags = 0x80000001` (replace and sync), the MDBM `ldbm_store` hands
`mdbm_store` the word `0x80000001`, with the sync bit still set, and the NDBM
`ldbm_store` does the same with `dbm_store`; the Berkeley DB 1.85 `ldbm_store`
hands `put` the word `1`, which is `flags & ~LDBM_SYNC`. -/
theorem mdbm_store_passes_sync_bit :
    (Mdbm.ldbm_store 0x80000000 Mdbm.mapApi
        (World.init { cells := [], pos := 0 } (fun _ => true))
        (Datum.ofBytes [1]) (Datum.ofBytes [3]) 0x80000001).toOption.map
          (fun r => nativeFlags Fn.mdbm_store r.1.trace)
      = some [0x80000001] ∧
    nativeFlags Fn.dbm_store (Ndbm.ldbm_store Ndbm.mapApi
        (World.init { cells := [], pos := 0 } (fun _ => true))
        (Datum.ofBytes [1]) (Datum.ofBytes [3]) 0x80000001).1.trace = [0x80000001] ∧
    nativeFlags Fn.db_put (Db1.ldbm_store 0x80000000 Db1.tableApi
        (World.init { cells := [], pos := 0 } (fun _ => true))
        (Datum.ofBytes [1]) (Datum.ofBytes [3]) 0x80000001).1.trace = [1] ∧
    clearBits 0x80000001 0x80000000 = 1 := by
  decide

end Ldbm

namespace PerlBack

/-- For a directive line whose first word is not case-insensitively equal to
`perlModule`, `perlModulePath` or `filterSearchResults`, and whose `config`
method returns one scalar `v`, `perl_back_db_config` makes exactly one
interpreter call, `config` on the stored object reference followed by all the
words of the line in order (`argv[0]` included); it returns `0` when the value
of `v` narrowed to an `int` is `0` and exits with `EXIT_FAILURE` otherwise;
`pb_obj_ref` and `pb_filter_search_results` are left as they were. -/
theorem perl_config_unknown_directive {π : Type} (bufsz : Nat) (perl56 : Bool)
    (interp : Interp π) (st : π)
    (pb : PerlBackend) (fname : String) (lineno : Int) (argv0 : String) (rest : List String)
    (v : SV)
    (h1 : strcasecmp argv0 "perlModule" ≠ 0)
    (h2 : strcasecmp argv0 "perlModulePath" ≠ 0)
    (h3 : strcasecmp argv0 "filterSearchResults" ≠ 0)
    (hcall : (interp.call_method st "config"
      (pb.pb_obj_ref :: (argv0 :: rest).map SV.pv)).2 = [v]) :
    perl_back_db_config bufsz perl56 interp st pb fname lineno (argv0 :: rest) =
      if Ldbm.wrapInt32 (interp.SvIV v) = 0 then
        Outcome.returned 0
          (interp.call_method st "config" (pb.pb_obj_ref :: (argv0 :: rest).map SV.pv)).1 pb
          [PEvent.call_method "config" (pb.pb_obj_ref :: (argv0 :: rest).map SV.pv)]
      else
        Outcome.exited EXIT_FAILURE
          (interp.call_method st "config" (pb.pb_obj_ref :: (argv0 :: rest).map SV.pv)).1 pb
          [PEvent.call_method "config" (pb.pb_obj_ref :: (argv0 :: rest).map SV.pv),
           PEvent.stderr ("Unknown perl backend config: " ++ argv0 ++ "\n")] := by
  simp only [perl_back_db_config, h1, h2, h3, if_false, hcall]
  by_cases hv : Ldbm.wrapInt32 (interp.SvIV v) = 0 <;> simp [hv]

/-- The lines `sockpath /tmp/x` (accepted by the method) and `verbose` (rejected
with the value `1`). -/
theorem perl_config_unknown_directive_example :
    perl_back_db_config 500 true countingInterp ()
        { pb_obj_ref := SV.ref 7, pb_filter_search_results := 0 } "slapd.conf" 12
        ["sockpath", "/tmp/x"]
      = Outcome.returned 0 ()
          { pb_obj_ref := SV.ref 7, pb_filter_search_results := 0 }
          [PEvent.call_method "config" [SV.ref 7, SV.pv "sockpath", SV.pv "/tmp/x"]] ∧
    perl_back_db_config 500 false countingInterp ()
        { pb_obj_ref := SV.ref 7, pb_filter_search_results := 0 } "slapd.conf" 13
        ["verbose"]
      = Outcome.exited EXIT_FAILURE ()
          { pb_obj_ref := SV.ref 7, pb_filter_search_results := 0 }
          [PEvent.call_method "config" [SV.ref 7, SV.pv "verbose"],
           PEvent.stderr ("Unknown perl backend config: " ++ "verbose" ++ "\n")] :=
  ⟨perl_config_unknown_directive 500 true countingInterp ()
      { pb_obj_ref := SV.ref 7, pb_filter_search_results := 0 } "slapd.conf" 12
      "sockpath" ["/tmp/x"] (SV.iv 0) (by decide) (by decide) (by decide) rfl,
   perl_config_unknown_directive 500 false countingInterp ()
      { pb_obj_ref := SV.ref 7, pb_filter_search_results := 0 } "slapd.conf" 13
      "verbose" [] (SV.iv 1) (by decide) (by decide) (by decide) rfl⟩

/-- C10 (the code at a failing input): for the unrecognised line
`sockpath /tmp/x`, when the `config` method returns the non-zero value
`4294967296` (2 ^ 32), `return_code` holds `0` after the narrowing to `int`, so
`perl_back_db_config` returns `0` instead of terminating the process; the
method is still invoked once on the stored object reference with the words of
the line in order, and `perl_back` is unchanged. -/
theorem perl_config_accepts_truncated_rejection :
    (constInterp 4294967296).SvIV (SV.iv 4294967296) ≠ 0 ∧
    strcasecmp "sockpath" "perlModule" ≠ 0 ∧
    strcasecmp "sockpath" "perlModulePath" ≠ 0 ∧
    strcasecmp "sockpath" "filterSearchResults" ≠ 0 ∧
    perl_back_db_config 500 true (constInterp 4294967296) ()
        { pb_obj_ref := SV.ref 7, pb_filter_search_results := 0 } "slapd.conf" 12
        ["sockpath", "/tmp/x"]
      = Outcome.returned 0 ()
          { pb_obj_ref := SV.ref 7, pb_filter_search_results := 0 }
          [PEvent.call_method "config" [SV.ref 7, SV.pv "sockpath", SV.pv "/tmp/x"]] :=
  ⟨by decide, by decide, by decide, by decide, rfl⟩

end PerlBack
